import Mathlib

/-!
# Verification of the SquidExcelAgent workbook engine

Shallow embedding of `src/server/src/sheet.ts` (class `SheetModel`): the
in-memory workbook data model, the mutation operations with their
event-sourced undo, and the recursive formula evaluator.

Modelling conventions:
* JavaScript strings are embedded as `List Char`.
* JavaScript numbers (IEEE-754 doubles) are embedded as exact rationals
  (`JSRat`) extended with the specials `Infinity`, `-Infinity` and `NaN`
  (`JSNum`).  IEEE rounding and signed zero are not modelled; every value
  reached by the verified claims is an integer, where double arithmetic is
  exact.
* Nondeterministic fields of the source (`uuid()` identifiers, `Date.now()`
  timestamps) are omitted from events and checkpoints; nothing in the
  claims depends on them.
* Exceptions are modelled in-band: operations return the workbook state at
  the moment of the throw together with an `Option EngineError` /
  `Except EngineError` result.  The error constructors are named after the
  structural-failure categories of the specification (§7), each mapping to
  one `throw` site of the source.
* Recursive evaluation is fuel-indexed (`Nat` fuel, `none` on exhaustion);
  the source recursion always terminates on the inputs of the claims, and
  every general theorem is proved for all fuel values.
* The source file imports its type declarations from `./types.js`, which
  only declares the record shapes (`Cell`, `Sheet`, `Workbook`, `RangeRef`,
  `SheetEvent`, `CellProvenance`); those shapes are reconstructed here from
  their uses in `sheet.ts` and from spec §3.  `CellProvenance` is free-form
  attribution metadata whose content no claim inspects; it is embedded as
  an opaque record holding one string.
-/

set_option synthInstance.maxSize 4096

deriving instance DecidableEq for Except

namespace SheetModel

/-! ## Characters and strings -/

/-- `[A-Za-z]` character class of the source's regexes. -/
def isAlphaCh (ch : Char) : Bool :=
  (65 ≤ ch.toNat && ch.toNat ≤ 90) || (97 ≤ ch.toNat && ch.toNat ≤ 122)

/-- `[0-9]` character class of the source's regexes. -/
def isDigitCh (ch : Char) : Bool :=
  48 ≤ ch.toNat && ch.toNat ≤ 57

/-- JavaScript word character (`\w`, i.e. `[A-Za-z0-9_]`), used for the
`\b` word-boundary assertions of the reference-substitution regex. -/
def isWordCh (ch : Char) : Bool :=
  isAlphaCh ch || isDigitCh ch || ch.toNat == 95

/-- Whitespace as matched by `\s` / `String.prototype.trim` (the claims only
ever exercise plain spaces; tabs and line breaks are included for good
measure, the exotic Unicode space classes are not). -/
def isWsCh (ch : Char) : Bool :=
  ch.toNat == 32 || ch.toNat == 9 || ch.toNat == 10 || ch.toNat == 13

/-- `String.prototype.trim`. -/
def trimL (cs : List Char) : List Char :=
  ((cs.dropWhile isWsCh).reverse.dropWhile isWsCh).reverse

/-- `String.prototype.toUpperCase` on one ASCII character (`colStr` in
`a1ToRc` only ever holds `[A-Za-z]+`). -/
def upperCh (ch : Char) : Char :=
  if 97 ≤ ch.toNat && ch.toNat ≤ 122 then Char.ofNat (ch.toNat - 32) else ch

theorem char_toNat_ofNat {n : Nat} (h : n < 55296) : (Char.ofNat n).toNat = n := by
  have hv : n.isValidChar := Or.inl h
  simp only [Char.ofNat, hv, Char.ofNatAux, Char.toNat, dite_true]
  rfl

/-! ## Address codec (`a1ToRc` / `rcToA1`, sheet.ts lines 34–48)

`rcToA1`'s letter loop prepends one character per iteration
(`s = String.fromCharCode(65 + rem) + s`), with `rem = (n - 1) % 26` and
`n := Math.floor((n - 1) / 26)`; unrolled from the last iteration to the
first this is exactly the append-recursion below.  The recursion is driven
by structural fuel (initialised to `n`, an upper bound on the number of
iterations) so that the definition computes by kernel reduction. -/

def colLettersAux : Nat → Nat → List Char
  | _, 0 => []
  | 0, _ + 1 => []
  | fuel + 1, n + 1 => colLettersAux fuel (n / 26) ++ [Char.ofNat (65 + n % 26)]

/-- The column-letter part of `rcToA1` applied to `n = c + 1`. -/
def colLetters (n : Nat) : List Char := colLettersAux n n

/-- Decimal digits of a natural number, as produced by JavaScript's
number-to-string coercion `s + (r + 1)` for nonnegative integers. -/
def natDigitsAux : Nat → Nat → List Char
  | 0, n => [Char.ofNat (48 + n % 10)]
  | fuel + 1, n =>
    if n < 10 then [Char.ofNat (48 + n)]
    else natDigitsAux fuel (n / 10) ++ [Char.ofNat (48 + n % 10)]

def natDigits (n : Nat) : List Char := natDigitsAux n n

/-- `static rcToA1(r, c)` (sheet.ts lines 44–48). -/
def rcToA1 (r c : Nat) : List Char := colLetters (c + 1) ++ natDigits (r + 1)

/-- Letter-part fold of `a1ToRc`:
`for (i...) col = col * 26 + (colStr.charCodeAt(i) - 64)` after
`toUpperCase`. -/
def lettersVal (cs : List Char) : Nat :=
  cs.foldl (fun acc ch => acc * 26 + ((upperCh ch).toNat - 64)) 0

/-- `parseInt(m[2], 10)` on an all-digit string. -/
def digitsVal (cs : List Char) : Nat :=
  cs.foldl (fun acc ch => acc * 10 + (ch.toNat - 48)) 0

/-- `static a1ToRc(ref)` (sheet.ts lines 34–42).  The regex
`^([A-Za-z]+)([0-9]+)$` splits the text into a nonempty greedy letter
prefix followed by a nonempty all-digit suffix; on failure the source
throws `Bad A1 ref`, embedded as `none`.  The returned coordinates are
integers because the source computes `parseInt(...) - 1`, which is `-1`
for a row number of `0`. -/
def a1ToRc (cs : List Char) : Option (Int × Int) :=
  let letters := cs.takeWhile isAlphaCh
  let rest := cs.dropWhile isAlphaCh
  if letters = [] ∨ rest = [] ∨ ¬ rest.all isDigitCh then none
  else some ((digitsVal rest : Int) - 1, (lettersVal letters : Int) - 1)

/-! ### Round-trip lemmas for the codec -/

theorem lettersVal_colLettersAux (fuel : Nat) :
    ∀ n a, n ≤ fuel →
      List.foldl (fun acc ch => acc * 26 + ((upperCh ch).toNat - 64)) a
          (colLettersAux fuel n)
        = a * 26 ^ (colLettersAux fuel n).length + n := by
  induction fuel with
  | zero =>
    intro n a hn
    interval_cases n
    simp [colLettersAux]
  | succ fuel ih =>
    intro n a hn
    match n with
    | 0 => simp [colLettersAux]
    | n + 1 =>
      have hrec : n / 26 ≤ fuel := by
        have h1 : n / 26 ≤ n := Nat.div_le_self n 26
        omega
      have hch : (Char.ofNat (65 + n % 26)).toNat = 65 + n % 26 := by
        have : 65 + n % 26 < 55296 := by
          have := Nat.mod_lt n (y := 26) (by omega)
          omega
        exact char_toNat_ofNat this
      have hupper : upperCh (Char.ofNat (65 + n % 26)) = Char.ofNat (65 + n % 26) := by
        unfold upperCh
        have := Nat.mod_lt n (y := 26) (by omega)
        simp only [hch]
        have : ¬ (97 ≤ 65 + n % 26 && 65 + n % 26 ≤ 122) = true := by
          simp only [Bool.and_eq_true, decide_eq_true_eq]
          omega
        simp [this]
      simp only [colLettersAux, List.foldl_append, List.length_append, List.length_cons,
        List.length_nil, List.foldl_cons, List.foldl_nil]
      rw [ih (n / 26) a hrec]
      rw [hupper, hch]
      have hdm : 26 * (n / 26) + n % 26 = n := Nat.div_add_mod' n 26 ▸ by
        omega
      have : n / 26 * 26 + n % 26 = n := by
        have := Nat.div_add_mod n 26
        omega
      ring_nf
      omega

theorem lettersVal_colLetters (n : Nat) : lettersVal (colLetters n) = n := by
  have := lettersVal_colLettersAux n n 0 (le_refl n)
  simpa [lettersVal, colLetters] using this

theorem digitsVal_natDigitsAux (fuel : Nat) :
    ∀ n a, n ≤ fuel ∨ n < 10 →
      List.foldl (fun acc ch => acc * 10 + (ch.toNat - 48)) a (natDigitsAux fuel n)
        = a * 10 ^ (natDigitsAux fuel n).length + n := by
  induction fuel with
  | zero =>
    intro n a hn
    have hn' : n < 10 := by omega
    have hch : (Char.ofNat (48 + n)).toNat = 48 + n := char_toNat_ofNat (by omega)
    simp [natDigitsAux, Nat.mod_eq_of_lt hn', hch]
  | succ fuel ih =>
    intro n a hn
    by_cases h10 : n < 10
    · have hch : (Char.ofNat (48 + n)).toNat = 48 + n := char_toNat_ofNat (by omega)
      simp [natDigitsAux, h10, hch]
    · have hrec : n / 10 ≤ fuel ∨ n / 10 < 10 := by
        left
        have h1 : n / 10 ≤ n := Nat.div_le_self n 10
        have h2 : n / 10 < n := Nat.div_lt_self (by omega) (by omega)
        omega
      have hch : (Char.ofNat (48 + n % 10)).toNat = 48 + n % 10 := by
        have : 48 + n % 10 < 55296 := by
          have := Nat.mod_lt n (y := 10) (by omega)
          omega
        exact char_toNat_ofNat this
      simp only [natDigitsAux, h10, if_false, List.foldl_append, List.length_append,
        List.length_cons, List.length_nil, List.foldl_cons, List.foldl_nil]
      rw [ih (n / 10) a hrec, hch]
      have : n / 10 * 10 + n % 10 = n := by
        have := Nat.div_add_mod n 10
        omega
      ring_nf
      omega

theorem digitsVal_natDigits (n : Nat) : digitsVal (natDigits n) = n := by
  have := digitsVal_natDigitsAux n n 0 (Or.inl (le_refl n))
  simpa [digitsVal, natDigits] using this

theorem colLettersAux_alpha (fuel : Nat) :
    ∀ n, ∀ ch ∈ colLettersAux fuel n, 65 ≤ ch.toNat ∧ ch.toNat ≤ 90 := by
  induction fuel with
  | zero =>
    intro n ch hch
    match n with
    | 0 => simp [colLettersAux] at hch
    | n + 1 => simp [colLettersAux] at hch
  | succ fuel ih =>
    intro n ch hch
    match n with
    | 0 => simp [colLettersAux] at hch
    | n + 1 =>
      simp only [colLettersAux, List.mem_append, List.mem_singleton] at hch
      rcases hch with hch | hch
      · exact ih _ ch hch
      · subst hch
        have hlt : 65 + n % 26 < 55296 := by
          have := Nat.mod_lt n (y := 26) (by omega)
          omega
        rw [char_toNat_ofNat hlt]
        have := Nat.mod_lt n (y := 26) (by omega)
        omega

theorem natDigitsAux_digit (fuel : Nat) :
    ∀ n, ∀ ch ∈ natDigitsAux fuel n, 48 ≤ ch.toNat ∧ ch.toNat ≤ 57 := by
  induction fuel with
  | zero =>
    intro n ch hch
    simp only [natDigitsAux, List.mem_singleton] at hch
    subst hch
    have hlt : 48 + n % 10 < 55296 := by
      have := Nat.mod_lt n (y := 10) (by omega)
      omega
    rw [char_toNat_ofNat hlt]
    have := Nat.mod_lt n (y := 10) (by omega)
    omega
  | succ fuel ih =>
    intro n ch hch
    by_cases h10 : n < 10
    · simp only [natDigitsAux, h10, if_true, List.mem_singleton] at hch
      subst hch
      rw [char_toNat_ofNat (by omega)]
      omega
    · simp only [natDigitsAux, h10, if_false, List.mem_append, List.mem_singleton] at hch
      rcases hch with hch | hch
      · exact ih _ ch hch
      · subst hch
        have hlt : 48 + n % 10 < 55296 := by
          have := Nat.mod_lt n (y := 10) (by omega)
          omega
        rw [char_toNat_ofNat hlt]
        have := Nat.mod_lt n (y := 10) (by omega)
        omega

theorem colLettersAux_ne_nil (fuel n : Nat) (hn : n ≠ 0) (hfuel : n ≤ fuel) :
    colLettersAux fuel n ≠ [] := by
  match fuel, n with
  | 0, n => omega
  | fuel + 1, n + 1 => simp [colLettersAux]

theorem natDigits_ne_nil (n : Nat) : natDigits n ≠ [] := by
  unfold natDigits
  match n with
  | 0 => simp [natDigitsAux]
  | n + 1 =>
    unfold natDigitsAux
    split <;> simp

theorem takeWhile_append_stop {p : Char → Bool} {xs : List Char} {y : Char} {ys : List Char}
    (hxs : ∀ x ∈ xs, p x = true) (hy : p y = false) :
    (xs ++ y :: ys).takeWhile p = xs ∧ (xs ++ y :: ys).dropWhile p = y :: ys := by
  induction xs with
  | nil => simp [List.takeWhile, List.dropWhile, hy]
  | cons x xs ih =>
    have hx : p x = true := hxs x (by simp)
    have ih' := ih (fun a ha => hxs a (by simp [ha]))
    simp [List.takeWhile, List.dropWhile, hx, ih'.1, ih'.2]

/-- **C1 core**: decoding an encoded address returns the original
coordinates, for all coordinates (not only the claim's finite box). -/
theorem a1ToRc_rcToA1 (r c : Nat) : a1ToRc (rcToA1 r c) = some ((r : Int), (c : Int)) := by
  have hc_ne : colLetters (c + 1) ≠ [] :=
    colLettersAux_ne_nil (c + 1) (c + 1) (by omega) (le_refl _)
  have halpha : ∀ x ∈ colLetters (c + 1), isAlphaCh x = true := by
    intro x hx
    have := colLettersAux_alpha (c + 1) (c + 1) x hx
    unfold isAlphaCh
    simp only [Bool.or_eq_true, Bool.and_eq_true, decide_eq_true_eq]
    omega
  obtain ⟨d, ds, hds⟩ : ∃ d ds, natDigits (r + 1) = d :: ds := by
    cases h : natDigits (r + 1) with
    | nil => exact absurd h (natDigits_ne_nil (r + 1))
    | cons d ds => exact ⟨d, ds, rfl⟩
  have hdigit : ∀ x ∈ natDigits (r + 1), 48 ≤ x.toNat ∧ x.toNat ≤ 57 :=
    fun x hx => natDigitsAux_digit (r + 1) (r + 1) x hx
  have hd_not_alpha : isAlphaCh d = false := by
    have h := hdigit d (by rw [hds]; simp)
    rw [Bool.eq_false_iff]
    intro hcontra
    unfold isAlphaCh at hcontra
    simp only [Bool.or_eq_true, Bool.and_eq_true, decide_eq_true_eq] at hcontra
    omega
  have hsplit := @takeWhile_append_stop isAlphaCh (colLetters (c + 1)) d ds halpha hd_not_alpha
  have ht : (rcToA1 r c).takeWhile isAlphaCh = colLetters (c + 1) := by
    unfold rcToA1
    rw [hds]
    exact hsplit.1
  have hdw : (rcToA1 r c).dropWhile isAlphaCh = natDigits (r + 1) := by
    unfold rcToA1
    rw [hds, hsplit.2, ← hds]
  have hall : (natDigits (r + 1)).all isDigitCh = true := by
    rw [List.all_eq_true]
    intro x hx
    have := hdigit x hx
    unfold isDigitCh
    simp only [Bool.and_eq_true, decide_eq_true_eq]
    omega
  simp only [a1ToRc, ht, hdw]
  rw [if_neg (by simp [hc_ne, natDigits_ne_nil (r + 1), hall])]
  rw [digitsVal_natDigits, lettersVal_colLetters]
  have h1 : ((r + 1 : Nat) : Int) - 1 = (r : Int) := by push_cast; ring
  have h2 : ((c + 1 : Nat) : Int) - 1 = (c : Int) := by push_cast; ring
  rw [h1, h2]

/-! ## JavaScript numbers

Exact rationals (normalised integer pair) plus the IEEE specials.  The
gcd used for normalisation is fuel-driven so that all arithmetic computes
by kernel reduction. -/

structure JSRat where
  num : Int
  den : Nat
deriving DecidableEq

def gcdF : Nat → Nat → Nat → Nat
  | 0, _, b => b
  | fuel + 1, a, b => if a = 0 then b else gcdF fuel (b % a) a

def natGcd (a b : Nat) : Nat := gcdF (a + 1) a b

/-- Normalised rational from an integer numerator and a positive natural
denominator. -/
def mkRat (n : Int) (d : Nat) : JSRat :=
  if d = 0 then ⟨0, 0⟩
  else
    let g := natGcd n.natAbs d
    ⟨n / (g : Int), d / g⟩

/-- Normalised rational from two integers (denominator sign folded into the
numerator). -/
def mkRatI (n d : Int) : JSRat :=
  if d < 0 then mkRat (-n) (-d).toNat else mkRat n d.toNat

/-- A JavaScript number: an exact finite rational or one of the IEEE
specials.  Rounding and signed zero are not modelled (see file header). -/
inductive JSNum where
  | fin (q : JSRat)
  | inf
  | negInf
  | nan
deriving DecidableEq

def jsInt (n : Int) : JSNum := .fin ⟨n, 1⟩

def numSign : JSNum → Int
  | .fin a => if 0 < a.num then 1 else if a.num < 0 then -1 else 0
  | .inf => 1
  | .negInf => -1
  | .nan => 0

def jsAdd : JSNum → JSNum → JSNum
  | .nan, _ => .nan
  | _, .nan => .nan
  | .inf, .negInf => .nan
  | .negInf, .inf => .nan
  | .inf, _ => .inf
  | _, .inf => .inf
  | .negInf, _ => .negInf
  | _, .negInf => .negInf
  | .fin a, .fin b => .fin (mkRat (a.num * b.den + b.num * a.den) (a.den * b.den))

def jsNeg : JSNum → JSNum
  | .fin a => .fin ⟨-a.num, a.den⟩
  | .inf => .negInf
  | .negInf => .inf
  | .nan => .nan

def jsSub (a b : JSNum) : JSNum := jsAdd a (jsNeg b)

def jsMul : JSNum → JSNum → JSNum
  | .nan, _ => .nan
  | _, .nan => .nan
  | .fin a, .fin b => .fin (mkRat (a.num * b.num) (a.den * b.den))
  | x, y =>
    if numSign x = 0 ∨ numSign y = 0 then .nan
    else if numSign x * numSign y = 1 then .inf else .negInf

def jsDiv : JSNum → JSNum → JSNum
  | .nan, _ => .nan
  | _, .nan => .nan
  | .fin a, .fin b =>
    if b.num = 0 then
      if a.num = 0 then .nan else if 0 < a.num then .inf else .negInf
    else .fin (mkRatI (a.num * b.den) (a.den * b.num))
  | .fin _, .inf => .fin ⟨0, 1⟩
  | .fin _, .negInf => .fin ⟨0, 1⟩
  | .inf, .fin b => if 0 ≤ b.num then .inf else .negInf
  | .negInf, .fin b => if 0 ≤ b.num then .negInf else .inf
  | _, _ => .nan

/-- `Number.isFinite`. -/
def jsIsFinite : JSNum → Bool
  | .fin _ => true
  | _ => false

/-- `isNaN` on a number. -/
def jsIsNaN : JSNum → Bool
  | .nan => true
  | _ => false

/-! ### Number-to-string coercion (`String(n)`)

Exact for integers and terminating decimal expansions of at most 20
digits (every value the claims reach is a small integer); IEEE
shortest-round-trip formatting of other doubles is outside the model. -/

def intToChars (n : Int) : List Char :=
  if n < 0 then '-' :: natDigits n.natAbs else natDigits n.natAbs

def fracDigitsAux : Nat → Nat → Nat → List Char
  | 0, _, _ => []
  | fuel + 1, r, d =>
    if r = 0 then []
    else Char.ofNat (48 + r * 10 / d % 10) :: fracDigitsAux fuel (r * 10 % d) d

def numToChars : JSNum → List Char
  | .inf => "Infinity".data
  | .negInf => "-Infinity".data
  | .nan => "NaN".data
  | .fin q =>
    if q.den = 0 then "NaN".data
    else
      let a := q.num.natAbs
      let frac := a % q.den
      let body := natDigits (a / q.den) ++
        (if frac = 0 then [] else '.' :: fracDigitsAux 20 frac q.den)
      if q.num < 0 then '-' :: body else body

/-! ### String-to-number coercion (`Number(s)`)

Decimal literals with an optional sign, optional fractional part and the
`Infinity` spellings; surrounding whitespace is trimmed and the empty
string is `0`, anything else is `NaN`.  Exponent and hex literal forms are
not produced by the engine and are not modelled. -/

def parseDec (u : List Char) : Option (JSRat × List Char) :=
  let ip := u.takeWhile isDigitCh
  let r1 := u.dropWhile isDigitCh
  match r1 with
  | '.' :: r2 =>
    let fp := r2.takeWhile isDigitCh
    let r3 := r2.dropWhile isDigitCh
    if ip = [] ∧ fp = [] then none
    else some (mkRat ((digitsVal ip * 10 ^ fp.length + digitsVal fp : Nat) : Int)
      (10 ^ fp.length), r3)
  | _ => if ip = [] then none else some (⟨(digitsVal ip : Int), 1⟩, r1)

def parseUnsignedNum (u : List Char) : JSNum :=
  if u = "Infinity".data then .inf
  else
    match parseDec u with
    | some (q, []) => .fin q
    | _ => .nan

def jsNumberOfChars (cs : List Char) : JSNum :=
  match trimL cs with
  | [] => jsInt 0
  | c :: rest =>
    if c = '-' then jsNeg (parseUnsignedNum rest)
    else if c = '+' then parseUnsignedNum rest
    else parseUnsignedNum (c :: rest)

/-- `Number(v)` on a cell value (`null` coerces to `0`). -/
def jsNumberOfVal : Option (Sum (List Char) JSNum) → JSNum
  | none => jsInt 0
  | some (.inr n) => n
  | some (.inl s) => jsNumberOfChars s

/-! ### The dynamic arithmetic evaluation

The source computes the residual expression with
`Function('"use strict"; return (' + expr + ')')()`, i.e. full JavaScript
evaluation.  The specification (§4.5 step 4) restricts the meaningful
fragment to `+ - * / ( )` over numeric literals; this evaluator models
exactly that fragment (plus the `Infinity`/`NaN` spellings that the
engine's own number-to-string substitution can emit), failing — like the
JavaScript evaluation — on everything else.  A failure models a thrown
`SyntaxError`/`ReferenceError`/`TypeError`.  JavaScript's maximal-munch
lexing of `--`/`++` (a syntax error on literal operands) is reproduced;
the `**` operator lies outside the specified fragment and is treated as a
failure. -/

inductive Tok where
  | num (n : JSNum)
  | plus
  | minus
  | star
  | slash
  | lparen
  | rparen
deriving DecidableEq

def tokenizeAux : Nat → List Char → Option (List Tok)
  | 0, _ => none
  | _ + 1, [] => some []
  | fuel + 1, c :: rest =>
    if isWsCh c then tokenizeAux fuel rest
    else if isDigitCh c || c = '.' then
      match parseDec (c :: rest) with
      | none => none
      | some (q, r) =>
        match tokenizeAux fuel r with
        | none => none
        | some toks => some (.num (.fin q) :: toks)
    else if isAlphaCh c then
      let w := (c :: rest).takeWhile isAlphaCh
      let r := (c :: rest).dropWhile isAlphaCh
      let tk : Option Tok :=
        if w = "Infinity".data then some (.num .inf)
        else if w = "NaN".data then some (.num .nan) else none
      match tk with
      | none => none
      | some t =>
        match tokenizeAux fuel r with
        | none => none
        | some toks => some (t :: toks)
    else
      let simple : Option Tok :=
        if c = '+' then if rest.head? = some '+' then none else some .plus
        else if c = '-' then if rest.head? = some '-' then none else some .minus
        else if c = '*' then if rest.head? = some '*' then none else some .star
        else if c = '/' then some .slash
        else if c = '(' then some .lparen
        else if c = ')' then some .rparen
        else none
      match simple with
      | none => none
      | some t =>
        match tokenizeAux fuel rest with
        | none => none
        | some toks => some (t :: toks)

mutual

def parseE : Nat → List Tok → Option (JSNum × List Tok)
  | 0, _ => none
  | fuel + 1, toks =>
    match parseT fuel toks with
    | none => none
    | some (v, rest) => parseELoop fuel v rest

def parseELoop : Nat → JSNum → List Tok → Option (JSNum × List Tok)
  | 0, _, _ => none
  | fuel + 1, acc, .plus :: rest =>
    match parseT fuel rest with
    | none => none
    | some (v, rest') => parseELoop fuel (jsAdd acc v) rest'
  | fuel + 1, acc, .minus :: rest =>
    match parseT fuel rest with
    | none => none
    | some (v, rest') => parseELoop fuel (jsSub acc v) rest'
  | _ + 1, acc, rest => some (acc, rest)

def parseT : Nat → List Tok → Option (JSNum × List Tok)
  | 0, _ => none
  | fuel + 1, toks =>
    match parseU fuel toks with
    | none => none
    | some (v, rest) => parseTLoop fuel v rest

def parseTLoop : Nat → JSNum → List Tok → Option (JSNum × List Tok)
  | 0, _, _ => none
  | fuel + 1, acc, .star :: rest =>
    match parseU fuel rest with
    | none => none
    | some (v, rest') => parseTLoop fuel (jsMul acc v) rest'
  | fuel + 1, acc, .slash :: rest =>
    match parseU fuel rest with
    | none => none
    | some (v, rest') => parseTLoop fuel (jsDiv acc v) rest'
  | _ + 1, acc, rest => some (acc, rest)

def parseU : Nat → List Tok → Option (JSNum × List Tok)
  | 0, _ => none
  | fuel + 1, .plus :: rest => parseU fuel rest
  | fuel + 1, .minus :: rest =>
    match parseU fuel rest with
    | none => none
    | some (v, rest') => some (jsNeg v, rest')
  | _ + 1, .num n :: rest => some (n, rest)
  | fuel + 1, .lparen :: rest =>
    match parseE fuel rest with
    | none => none
    | some (v, .rparen :: rest') => some (v, rest')
    | some _ => none
  | _ + 1, _ => none

end

/-- Evaluation of the residual expression text; `.error ()` models a thrown
exception reaching the `catch` of `evaluateCell`. -/
def jsEval (cs : List Char) : Except Unit JSNum :=
  match tokenizeAux (cs.length + 1) cs with
  | none => .error ()
  | some toks =>
    match parseE (4 * toks.length + 8) toks with
    | some (v, []) => .ok v
    | _ => .error ()

/-! ## Data model (types.js shapes, reconstructed from their uses and §3) -/

/-- A cell value: `string | number | null` (`null` is `none`). -/
abbrev CellVal := Option (Sum (List Char) JSNum)

/-- Free-form attribution metadata; no claim inspects its content. -/
structure CellProvenance where
  tag : List Char
deriving DecidableEq

/-- `Cell`: `{value, formula?, format?, provenance?}`; absent (`undefined`)
optional fields are `none`. -/
structure Cell where
  value : CellVal := none
  formula : Option (List Char) := none
  format : Option (List Char) := none
  provenance : Option (List CellProvenance) := none
deriving DecidableEq

/-- The default cell `{ value: null }` used for lazy growth. -/
def defaultCell : Cell := {}

structure Sheet where
  name : List Char
  rows : List (List Cell)
deriving DecidableEq

/-- `RangeRef`: sheet name plus inclusive 0-based bounds. -/
structure RangeRef where
  sheet : List Char
  r1 : Nat
  c1 : Nat
  r2 : Nat
  c2 : Nat
deriving DecidableEq

/-- The operation vocabulary of the string-keyed dispatcher, embedded as a
closed sum (spec §9 design note); each constructor carries the `args`
shape the source reads. -/
inductive Op where
  | createSheet (name : List Char)
  | deleteSheet (name : List Char)
  | restoreSheet (sheet : Sheet)
  | setValues (range : RangeRef) (values : List (List CellVal))
      (provenance : Option (List CellProvenance))
  | setFormulas (range : RangeRef) (formulas : List (List (Option (List Char))))
  | formatRange (range : RangeRef) (format : Option (List Char))
  | linkProvenance (range : RangeRef) (prov : List CellProvenance)
  | setCells (range : RangeRef) (cells : List (List Cell))
  | noop
deriving DecidableEq

/-- An event: forward op, structurally derived inverse, human summary.
The random `id` and wall-clock `ts` of the source are omitted. -/
structure SheetEvent where
  op : Op
  inverse : Op
  summary : List Char
deriving DecidableEq

/-- A checkpoint marker (random/wall-clock fields omitted). -/
structure Checkpoint where
  id : List Char
  atEvent : Nat
deriving DecidableEq

/-- The workbook.  The `Map<string, Sheet>` is embedded as an
insertion-ordered list of sheets keyed by their `name` field (the source
always sets the map key to the sheet's own name). -/
structure Workbook where
  sheets : List Sheet
  checkpoints : List Checkpoint
  events : List SheetEvent
deriving DecidableEq

/-- Structural failure categories (spec §7), one per `throw` site:
`sheetNotFound` = `Sheet not found: ...`, `duplicateSheet` = `Sheet exists`,
`badAddress` = `Bad A1 ref: ...`; `typeError` models the TypeError JavaScript
raises when a negative row index (from an `A0`-style token) is dereferenced. -/
inductive EngineError where
  | sheetNotFound (name : List Char)
  | duplicateSheet
  | badAddress (ref : List Char)
  | typeError
deriving DecidableEq

/-! ### Map and grid helpers -/

/-- `wb.sheets.get(name)`. -/
def lookupSheet (sheets : List Sheet) (name : List Char) : Option Sheet :=
  sheets.find? (fun s => s.name = name)

/-- `wb.sheets.has(name)`. -/
def hasSheet (sheets : List Sheet) (name : List Char) : Bool :=
  (lookupSheet sheets name).isSome

/-- `wb.sheets.set(s.name, s)`: replace in place, else append. -/
def mapSet (sheets : List Sheet) (s : Sheet) : List Sheet :=
  if hasSheet sheets s.name then
    sheets.map (fun t => if t.name = s.name then s else t)
  else sheets ++ [s]

/-- `wb.sheets.delete(name)`. -/
def mapDelete (sheets : List Sheet) (name : List Char) : List Sheet :=
  sheets.filter (fun s => ¬ s.name = name)

/-- Replace the row grid of the named sheet. -/
def sheetsUpdateRows (sheets : List Sheet) (name : List Char) (g : List (List Cell)) :
    List Sheet :=
  sheets.map (fun s => if s.name = name then { s with rows := g } else s)

/-- The row grid of the named sheet (callers only use it when the sheet
exists). -/
def rowsOf (wb : Workbook) (name : List Char) : List (List Cell) :=
  match lookupSheet wb.sheets name with
  | some s => s.rows
  | none => []

/-- `s.rows[r][c]` read; out-of-grid reads yield the default cell, matching
the `?? { value: null }` coalescing at every in-source read of a possibly
missing cell. -/
def gridGet (g : List (List Cell)) (r c : Nat) : Cell :=
  (g.getD r []).getD c defaultCell

/-- `s.rows[r][c] = cell`.  `List.set` ignores out-of-bounds writes; every
theorem about a mutation op carries the hypothesis that its payload fits
the (previously `ensureSize`-padded) target rectangle, the domain on which
this models the JavaScript assignment (outside it the source either throws
a `TypeError` or creates array holes). -/
def gridSet (g : List (List Cell)) (r c : Nat) (cell : Cell) : List (List Cell) :=
  g.set r ((g.getD r []).set c cell)

/-- `ensureSize` grid padding: grow to `nr` rows, then pad every row to
`nc` columns with default cells (sheet.ts lines 28–32). -/
def padGrid (g : List (List Cell)) (nr nc : Nat) : List (List Cell) :=
  (g ++ List.replicate (nr - g.length) ([] : List Cell)).map
    (fun row => row ++ List.replicate (nc - row.length) defaultCell)

/-- `ensureSize(sheetName, rows, cols)`.  The source first calls
`getSheet` (throwing if absent); every caller has already performed that
lookup, so the absent case — modelled as the identity — is unreachable. -/
def ensureSize (wb : Workbook) (name : List Char) (nr nc : Nat) : Workbook :=
  match lookupSheet wb.sheets name with
  | none => wb
  | some s => { wb with sheets := sheetsUpdateRows wb.sheets name (padGrid s.rows nr nc) }

/-! ### Events, checkpoints, ops (sheet.ts lines 62–163) -/

def appendEvent (wb : Workbook) (op inverse : Op) (summary : List Char) : Workbook :=
  { wb with events := wb.events ++ [⟨op, inverse, summary⟩] }

/-- `checkpoint(id)` records the current log length. -/
def checkpoint (wb : Workbook) (id : List Char) : Workbook :=
  { wb with checkpoints := wb.checkpoints ++ [⟨id, wb.events.length⟩] }

/-- `createSheet(name)`; throws `DuplicateSheet` (`'Sheet exists'`) if the
name is taken. -/
def createSheet (wb : Workbook) (name : List Char) : Workbook × Option EngineError :=
  if hasSheet wb.sheets name then (wb, some .duplicateSheet)
  else
    (appendEvent { wb with sheets := mapSet wb.sheets ⟨name, []⟩ }
      (.createSheet name) (.deleteSheet name) ("create ".data ++ name), none)

/-- `deleteSheet(name)`; throws `SheetNotFound` if absent, else removes the
sheet and records its full snapshot in the inverse `restoreSheet`. -/
def deleteSheet (wb : Workbook) (name : List Char) : Workbook × Option EngineError :=
  match lookupSheet wb.sheets name with
  | none => (wb, some (.sheetNotFound name))
  | some s =>
    (appendEvent { wb with sheets := mapDelete wb.sheets name }
      (.deleteSheet name) (.restoreSheet s) ("delete ".data ++ name), none)

/-- `restoreSheet(sheet)` (undo-only op). -/
def restoreSheet (wb : Workbook) (s : Sheet) : Workbook × Option EngineError :=
  (appendEvent { wb with sheets := mapSet wb.sheets s }
    (.restoreSheet s) (.deleteSheet s.name) ("restore ".data ++ s.name), none)

/-- Before-image of a range (sheet.ts lines 50–60): pad, then copy the
rectangle. -/
def snapshotRect (g : List (List Cell)) (r1 c1 r2 c2 : Nat) : List (List Cell) :=
  (List.range (r2 + 1 - r1)).map
    (fun i => (List.range (c2 + 1 - c1)).map (fun j => gridGet g (r1 + i) (c1 + j)))

/-- `snapshot(range)`; throws `SheetNotFound` via `getSheet` if the sheet is
absent. -/
def snapshot (wb : Workbook) (rg : RangeRef) :
    Workbook × Except EngineError (List (List Cell)) :=
  match lookupSheet wb.sheets rg.sheet with
  | none => (wb, .error (.sheetNotFound rg.sheet))
  | some _ =>
    let wb1 := ensureSize wb rg.sheet (rg.r2 + 1) (rg.c2 + 1)
    (wb1, .ok (snapshotRect (rowsOf wb1 rg.sheet) rg.r1 rg.c1 rg.r2 rg.c2))

/-- The cell written by `setValues` at one position: keep the previous
cell, overwrite `value`, clear `formula`, replace provenance when one is
supplied. -/
def setValuesCell (prev : Cell) (v : CellVal) (prov : Option (List CellProvenance)) : Cell :=
  let pv : Option (List CellProvenance) :=
    match prov with
    | some p => some p
    | none => prev.provenance
  { prev with value := v, formula := none, provenance := pv }

def writeValuesRow (g : List (List Cell)) (r c : Nat)
    (prov : Option (List CellProvenance)) : List CellVal → List (List Cell)
  | [] => g
  | v :: rest =>
    writeValuesRow (gridSet g r c (setValuesCell (gridGet g r c) v prov)) r (c + 1) prov rest

def writeValues (g : List (List Cell)) (r c1 : Nat)
    (prov : Option (List CellProvenance)) : List (List CellVal) → List (List Cell)
  | [] => g
  | row :: rest => writeValues (writeValuesRow g r c1 prov row) (r + 1) c1 prov rest

/-- `setValues(range, values, provenance?)` (sheet.ts lines 100–117). -/
def setValues (wb : Workbook) (rg : RangeRef) (values : List (List CellVal))
    (prov : Option (List CellProvenance)) : Workbook × Option EngineError :=
  match snapshot wb rg with
  | (wbS, .error e) => (wbS, some e)
  | (wbS, .ok before) =>
    let wb1 := ensureSize wbS rg.sheet (rg.r2 + 1) (rg.c2 + 1)
    let wb2 := { wb1 with
      sheets := sheetsUpdateRows wb1.sheets rg.sheet
        (writeValues (rowsOf wb1 rg.sheet) rg.r1 rg.c1 prov values) }
    (appendEvent wb2 (.setValues rg values prov) (.setCells rg before)
      ("setValues ".data ++ rg.sheet ++ "!".data ++ rcToA1 rg.r1 rg.c1), none)

def writeCellsRow (g : List (List Cell)) (r c : Nat) : List Cell → List (List Cell)
  | [] => g
  | cell :: rest => writeCellsRow (gridSet g r c cell) r (c + 1) rest

def writeCells (g : List (List Cell)) (r c1 : Nat) : List (List Cell) → List (List Cell)
  | [] => g
  | row :: rest => writeCells (writeCellsRow g r c1 row) (r + 1) c1 rest

/-- `setCells(range, cells)` (sheet.ts lines 119–124): raw overwrite,
undo-only; its own inverse is `noop`. -/
def setCells (wb : Workbook) (rg : RangeRef) (cells : List (List Cell)) :
    Workbook × Option EngineError :=
  match lookupSheet wb.sheets rg.sheet with
  | none => (wb, some (.sheetNotFound rg.sheet))
  | some _ =>
    let wb1 := ensureSize wb rg.sheet (rg.r2 + 1) (rg.c2 + 1)
    let wb2 := { wb1 with
      sheets := sheetsUpdateRows wb1.sheets rg.sheet
        (writeCells (rowsOf wb1 rg.sheet) rg.r1 rg.c1 cells) }
    (appendEvent wb2 (.setCells rg cells) .noop "setCells".data, none)

def writeFormulasRow (g : List (List Cell)) (r c : Nat) :
    List (Option (List Char)) → List (List Cell)
  | [] => g
  | f :: rest =>
    writeFormulasRow
      (gridSet g r c { gridGet g r c with value := none, formula := f }) r (c + 1) rest

def writeFormulas (g : List (List Cell)) (r c1 : Nat) :
    List (List (Option (List Char))) → List (List Cell)
  | [] => g
  | row :: rest => writeFormulas (writeFormulasRow g r c1 row) (r + 1) c1 rest

/-- `setFormulas(range, formulas)` (sheet.ts lines 126–139). -/
def setFormulas (wb : Workbook) (rg : RangeRef)
    (formulas : List (List (Option (List Char)))) : Workbook × Option EngineError :=
  match snapshot wb rg with
  | (wbS, .error e) => (wbS, some e)
  | (wbS, .ok before) =>
    let wb1 := ensureSize wbS rg.sheet (rg.r2 + 1) (rg.c2 + 1)
    let wb2 := { wb1 with
      sheets := sheetsUpdateRows wb1.sheets rg.sheet
        (writeFormulas (rowsOf wb1 rg.sheet) rg.r1 rg.c1 formulas) }
    (appendEvent wb2 (.setFormulas rg formulas) (.setCells rg before)
      ("setFormulas ".data ++ rg.sheet ++ "!".data ++ rcToA1 rg.r1 rg.c1), none)

def formatRowGo (g : List (List Cell)) (r c : Nat) (fmt : Option (List Char)) :
    Nat → List (List Cell)
  | 0 => g
  | k + 1 => formatRowGo (gridSet g r c { gridGet g r c with format := fmt }) r (c + 1) fmt k

def formatRect (g : List (List Cell)) (r c1 : Nat) (fmt : Option (List Char))
    (ncols : Nat) : Nat → List (List Cell)
  | 0 => g
  | k + 1 => formatRect (formatRowGo g r c1 fmt ncols) (r + 1) c1 fmt ncols k

/-- `formatRange(range, format | null)` (sheet.ts lines 141–152). -/
def formatRange (wb : Workbook) (rg : RangeRef) (fmt : Option (List Char)) :
    Workbook × Option EngineError :=
  match snapshot wb rg with
  | (wbS, .error e) => (wbS, some e)
  | (wbS, .ok before) =>
    let wb1 := ensureSize wbS rg.sheet (rg.r2 + 1) (rg.c2 + 1)
    let wb2 := { wb1 with
      sheets := sheetsUpdateRows wb1.sheets rg.sheet
        (formatRect (rowsOf wb1 rg.sheet) rg.r1 rg.c1 fmt (rg.c2 + 1 - rg.c1)
          (rg.r2 + 1 - rg.r1)) }
    (appendEvent wb2 (.formatRange rg fmt) (.setCells rg before)
      ("formatRange ".data ++ rg.sheet), none)

/-- Appended provenance on one cell (creating the list when absent). -/
def provAppend (cell : Cell) (prov : List CellProvenance) : Cell :=
  { cell with provenance := some ((cell.provenance.getD []) ++ prov) }

def provRowGo (g : List (List Cell)) (r c : Nat) (prov : List CellProvenance) :
    Nat → List (List Cell)
  | 0 => g
  | k + 1 => provRowGo (gridSet g r c (provAppend (gridGet g r c) prov)) r (c + 1) prov k

def provRect (g : List (List Cell)) (r c1 : Nat) (prov : List CellProvenance)
    (ncols : Nat) : Nat → List (List Cell)
  | 0 => g
  | k + 1 => provRect (provRowGo g r c1 prov ncols) (r + 1) c1 prov ncols k

/-- `linkProvenance(range, prov)` (sheet.ts lines 154–163); the snapshot it
takes first pads the grid, so the direct cell accesses that follow are in
bounds. -/
def linkProvenance (wb : Workbook) (rg : RangeRef) (prov : List CellProvenance) :
    Workbook × Option EngineError :=
  match snapshot wb rg with
  | (wbS, .error e) => (wbS, some e)
  | (wbS, .ok before) =>
    let wb2 := { wbS with
      sheets := sheetsUpdateRows wbS.sheets rg.sheet
        (provRect (rowsOf wbS rg.sheet) rg.r1 rg.c1 prov (rg.c2 + 1 - rg.c1)
          (rg.r2 + 1 - rg.r1)) }
    (appendEvent wb2 (.linkProvenance rg prov) (.setCells rg before)
      ("linkProvenance ".data ++ rg.sheet), none)

/-- `dispatch(op, args, internal)` (sheet.ts lines 279–292).  The op type
is a closed sum, so the `Unknown op` fallback carries no inhabitant here;
the `internal` flag therefore has no observable effect in the embedding
and is kept only to mirror the signature. -/
def dispatch (wb : Workbook) (op : Op) (_internal : Bool) : Workbook × Option EngineError :=
  match op with
  | .createSheet name => createSheet wb name
  | .deleteSheet name => deleteSheet wb name
  | .restoreSheet s => restoreSheet wb s
  | .setValues rg values prov => setValues wb rg values prov
  | .setFormulas rg formulas => setFormulas wb rg formulas
  | .formatRange rg fmt => formatRange wb rg fmt
  | .setCells rg cells => setCells wb rg cells
  | .linkProvenance rg prov => linkProvenance wb rg prov
  | .noop => (wb, none)

/-- `undo()` (sheet.ts lines 75–80): pop the trailing event (if any) and
dispatch its inverse with the internal flag. -/
def undo (wb : Workbook) : Workbook × Option SheetEvent × Option EngineError :=
  match wb.events.getLast? with
  | none => (wb, none, none)
  | some ev =>
    let wb1 := { wb with events := wb.events.dropLast }
    let (wb2, err) := dispatch wb1 ev.inverse true
    (wb2, some ev, err)

def emptyWorkbook : Workbook := ⟨[], [], []⟩

/-! ## Formula evaluator (sheet.ts lines 165–276)

The evaluator works on the formula text in two regex passes before the
final arithmetic evaluation.  The passes are split into a pure
tokenisation of the text (`splitSum`, `splitRefs`, mirroring the
semantics of the global regexes `SUM\(\s*([^)]+?)\s*\)` with the `i` flag
and `\b([A-Za-z]+[0-9]+)\b`) followed by an effectful substitution over
the resulting segments.  The recursion guard `seen` is the `Set<string>`
threaded by reference through all recursive calls; the string keys
`sheet:r:c` are in bijection with `(sheet, r, c)` triples (row and column
are the final two numeric segments), so the set is embedded as a list of
triples with membership testing. -/

abbrev SeenKey := List Char × Nat × Nat

abbrev Seen := List SeenKey

/-- `string | number`, the result type of `evalRef`/`sumTerm`/`sumArgs`. -/
abbrev NumStr := Sum (List Char) JSNum

/-- `expr.includes(pat)`. -/
def containsSub (pat cs : List Char) : Bool :=
  cs.tails.any (fun t => pat.isPrefixOf t)

/-- `String.prototype.split(',')` (keeps empty pieces). -/
def splitOnComma : List Char → List (List Char)
  | [] => [[]]
  | ',' :: rest => [] :: splitOnComma rest
  | c :: rest =>
    match splitOnComma rest with
    | [] => [[c]]
    | t :: ts => (c :: t) :: ts

/-- `term.replace(/,/g, '')`. -/
def removeCommas (cs : List Char) : List Char :=
  cs.filter (fun ch => ¬ ch = ',')

/-- `/^[A-Za-z]+[0-9]+$/.test(t)`. -/
def isRefTok (cs : List Char) : Bool :=
  let l := cs.takeWhile isAlphaCh
  let r := cs.dropWhile isAlphaCh
  ¬ l.isEmpty && ¬ r.isEmpty && r.all isDigitCh

/-- `/^[A-Za-z]+[0-9]+:[A-Za-z]+[0-9]+$/.test(t)` (also the shape of the
case-insensitive match re-done inside `sumRange`). -/
def isRangeTok (cs : List Char) : Bool :=
  let a := cs.takeWhile (fun ch => ¬ ch = ':')
  match cs.dropWhile (fun ch => ¬ ch = ':') with
  | ':' :: b => isRefTok a && isRefTok b
  | _ => false

/-- One segment of the SUM pass: literal text or the argument-list group of
one `SUM(...)` occurrence. -/
inductive Seg where
  | lit (cs : List Char)
  | call (args : List Char)
deriving DecidableEq

def pushLit (c : Char) : List Seg → List Seg
  | .lit cs :: segs => .lit (c :: cs) :: segs
  | segs => .lit [c] :: segs

/-- Case-insensitive match of `SUM(` at the head. -/
def isSumOpen : List Char → Bool
  | s :: u :: m :: p :: _ =>
    upperCh s = 'S' && upperCh u = 'U' && upperCh m = 'M' && p = '('
  | _ => false

/-- Split at the first `)` (the lazy `[^)]+?` can never cross one). -/
def splitAtRParen (cs : List Char) : Option (List Char × List Char) :=
  let a := cs.takeWhile (fun ch => ¬ ch = ')')
  match cs.dropWhile (fun ch => ¬ ch = ')') with
  | ')' :: rest => some (a, rest)
  | _ => none

/-- The captured group of `\s*([^)]+?)\s*`: the content trimmed, except
that all-whitespace content (which the greedy leading `\s*` eats up to its
last character) captures just its final character. -/
def lazyGroup (content : List Char) : List Char :=
  if trimL content = [] then
    match content.getLast? with
    | some ch => [ch]
    | none => []
  else trimL content

/-- Scan for the global, case-insensitive `SUM\(\s*([^)]+?)\s*\)`:
a match is consumed and scanning resumes after it (replacements are never
rescanned); on failure the scanner advances one character. -/
def splitSumAux : Nat → List Char → List Seg
  | 0, cs => [.lit cs]
  | _ + 1, [] => []
  | fuel + 1, c :: rest =>
    if isSumOpen (c :: rest) then
      match splitAtRParen ((c :: rest).drop 4) with
      | some (content, rest') =>
        if content = [] then pushLit c (splitSumAux fuel rest)
        else .call (lazyGroup content) :: splitSumAux fuel rest'
      | none => pushLit c (splitSumAux fuel rest)
    else pushLit c (splitSumAux fuel rest)

def splitSum (cs : List Char) : List Seg := splitSumAux (cs.length + 1) cs

/-- One segment of the reference pass: literal text or a
`\b[A-Za-z]+[0-9]+\b` token. -/
inductive RSeg where
  | lit (cs : List Char)
  | tok (cs : List Char)
deriving DecidableEq

def pushRLit (c : Char) : List RSeg → List RSeg
  | .lit cs :: segs => .lit (c :: cs) :: segs
  | segs => .lit [c] :: segs

/-- Scan for the global `\b([A-Za-z]+[0-9]+)\b`; `prevWord` tracks whether
the previous character is a word character (the left `\b`). -/
def splitRefsAux : Nat → Bool → List Char → List RSeg
  | 0, _, cs => [.lit cs]
  | _ + 1, _, [] => []
  | fuel + 1, prevWord, c :: rest =>
    if ¬ prevWord && isAlphaCh c then
      let letters := (c :: rest).takeWhile isAlphaCh
      let r1 := (c :: rest).dropWhile isAlphaCh
      let digits := r1.takeWhile isDigitCh
      let r2 := r1.dropWhile isDigitCh
      let boundary : Bool :=
        match r2.head? with
        | some ch => ¬ isWordCh ch
        | none => true
      if ¬ digits.isEmpty && boundary then
        .tok (letters ++ digits) :: splitRefsAux fuel true r2
      else pushRLit c (splitRefsAux fuel (isWordCh c) rest)
    else pushRLit c (splitRefsAux fuel (isWordCh c) rest)

def splitRefs (cs : List Char) : List RSeg := splitRefsAux (cs.length + 1) false cs

/-- `cell.value = v` through the reference obtained from the grid. -/
def setCellValue (wb : Workbook) (name : List Char) (r c : Nat) (v : CellVal) : Workbook :=
  let g := gridSet (rowsOf wb name) r c { gridGet (rowsOf wb name) r c with value := v }
  { wb with sheets := sheetsUpdateRows wb.sheets name g }

/-- `getCell(sheet, r, c)` (sheet.ts line 172): pad to `(r+1, c+1)` and
read. -/
def getCell (wb : Workbook) (name : List Char) (r c : Nat) :
    Workbook × Except EngineError Cell :=
  match lookupSheet wb.sheets name with
  | none => (wb, .error (.sheetNotFound name))
  | some _ =>
    let wb1 := ensureSize wb name (r + 1) (c + 1)
    (wb1, .ok (gridGet (rowsOf wb1 name) r c))

/-- The final step of `evaluateCell` (sheet.ts lines 262–275): sentinel
check on the residual text, then the dynamic arithmetic evaluation.  The
source stores `typeof val === 'number' ? val : Number(val) || 0`; within
the modelled arithmetic fragment the evaluation result is always a
number, so the coercion's else-branch is dead. -/
def evalFinal (wb : Workbook) (sheet : List Char) (r c : Nat) (expr : List Char) :
    Workbook × CellVal :=
  if containsSub "#REF!".data expr || containsSub "#ERROR!".data expr then
    let v : CellVal :=
      some (.inl (if containsSub "#REF!".data expr then "#REF!".data else "#ERROR!".data))
    (setCellValue wb sheet r c v, v)
  else
    match jsEval expr with
    | .ok n => (setCellValue wb sheet r c (some (.inr n)), some (.inr n))
    | .error _ =>
      (setCellValue wb sheet r c (some (.inl "#ERROR!".data)), some (.inl "#ERROR!".data))

mutual

/-- `evaluateCell(sheet, r, c, seen)` (sheet.ts lines 234–276). -/
def evaluateCell : Nat → Workbook → List Char → Nat → Nat → Seen →
    Option (Workbook × Seen × Except EngineError CellVal)
  | 0, _, _, _, _, _ => none
  | fuel + 1, wb, sheet, r, c, seen =>
    if (sheet, r, c) ∈ seen then
      match getCell wb sheet r c with
      | (wb1, .error e) => some (wb1, seen, .error e)
      | (wb1, .ok _) =>
        (some (setCellValue wb1 sheet r c (some (.inl "#REF!".data)), seen,
          .ok (some (.inl "#REF!".data))))
    else
      let seen1 := seen ++ [(sheet, r, c)]
      match getCell wb sheet r c with
      | (wb1, .error e) => some (wb1, seen1, .error e)
      | (wb1, .ok cell) =>
        match cell.formula with
        | none => some (wb1, seen1, .ok cell.value)
        | some f =>
          match trimL f with
          | '=' :: expr0 =>
            (match sumPassGo fuel wb1 sheet seen1 (splitSum expr0) [] with
            | none => none
            | some (wb2, seen2, .error e) => some (wb2, seen2, .error e)
            | some (wb2, seen2, .ok expr1) =>
              match refPassGo fuel wb2 sheet seen2 (splitRefs expr1) [] with
              | none => none
              | some (wb3, seen3, .error e) => some (wb3, seen3, .error e)
              | some (wb3, seen3, .ok expr2) =>
                let res := evalFinal wb3 sheet r c expr2
                some (res.1, seen3, .ok res.2))
          | _ => some (wb1, seen1, .ok cell.value)
termination_by structural fuel => fuel

/-- `evalRef(sheet, a1, seen)` (sheet.ts lines 174–185).  The final
`Number(v)` coercion is dead code given the cell value type and is not
represented.  A negative decoded row (an `A0`-style token) makes the
source dereference `undefined`, a thrown `TypeError`. -/
def evalRef : Nat → Workbook → List Char → List Char → Seen →
    Option (Workbook × Seen × Except EngineError NumStr)
  | 0, _, _, _, _ => none
  | fuel + 1, wb, sheet, a1, seen =>
    match a1ToRc a1 with
    | none => some (wb, seen, .error (.badAddress a1))
    | some (ri, ci) =>
      if ri < 0 ∨ ci < 0 then some (wb, seen, .error .typeError)
      else
        match evaluateCell fuel wb sheet ri.toNat ci.toNat seen with
        | none => none
        | some (wb', seen', .error e) => some (wb', seen', .error e)
        | some (wb', seen', .ok v) =>
          match v with
          | some (.inl s) => some (wb', seen', .ok (.inl s))
          | some (.inr n) => some (wb', seen', .ok (.inr n))
          | none => some (wb', seen', .ok (.inr (jsInt 0)))
termination_by structural fuel => fuel

/-- `sumTerm(sheet, term, seen)` (sheet.ts lines 187–198). -/
def sumTerm : Nat → Workbook → List Char → List Char → Seen →
    Option (Workbook × Seen × Except EngineError NumStr)
  | 0, _, _, _, _ => none
  | fuel + 1, wb, sheet, term, seen =>
    let t := trimL term
    if isRangeTok t then
      match sumRange fuel wb sheet t seen with
      | none => none
      | some (wb', seen', .error e) => some (wb', seen', .error e)
      | some (wb', seen', .ok n) => some (wb', seen', .ok (.inr n))
    else if isRefTok t then evalRef fuel wb sheet t seen
    else
      let n := jsNumberOfChars (removeCommas t)
      some (wb, seen, .ok (.inr (if jsIsFinite n then n else jsInt 0)))
termination_by structural fuel => fuel

/-- The argument loop of `sumArgs` (sheet.ts lines 200–217): running
total, immediate return of the first error string. -/
def sumArgsGo : Nat → Workbook → List Char → List (List Char) → JSNum → Seen →
    Option (Workbook × Seen × Except EngineError NumStr)
  | 0, _, _, _, _, _ => none
  | _ + 1, wb, _, [], total, seen => some (wb, seen, .ok (.inr total))
  | fuel + 1, wb, sheet, t :: ts, total, seen =>
    match sumTerm fuel wb sheet t seen with
    | none => none
    | some (wb', seen', .error e) => some (wb', seen', .error e)
    | some (wb', seen', .ok (.inl s)) => some (wb', seen', .ok (.inl s))
    | some (wb', seen', .ok (.inr n)) => sumArgsGo fuel wb' sheet ts (jsAdd total n) seen'
termination_by structural fuel => fuel

/-- `sumArgs(sheet, args, seen)`: split on every comma, then fold. -/
def sumArgs : Nat → Workbook → List Char → List Char → Seen →
    Option (Workbook × Seen × Except EngineError NumStr)
  | 0, _, _, _, _ => none
  | fuel + 1, wb, sheet, args, seen =>
    sumArgsGo fuel wb sheet (splitOnComma args) (jsInt 0) seen
termination_by structural fuel => fuel

/-- `sumRange(sheet, a1range, seen)` (sheet.ts lines 219–232). -/
def sumRange : Nat → Workbook → List Char → List Char → Seen →
    Option (Workbook × Seen × Except EngineError JSNum)
  | 0, _, _, _, _ => none
  | fuel + 1, wb, sheet, t, seen =>
    if ¬ isRangeTok t then some (wb, seen, .ok (jsInt 0))
    else
      let a := t.takeWhile (fun ch => ¬ ch = ':')
      let b := (t.dropWhile (fun ch => ¬ ch = ':')).tail
      match a1ToRc a, a1ToRc b with
      | some (ra, ca), some (rb, cb) =>
        let rLo := min ra rb
        let cLo := min ca cb
        if rLo < 0 ∨ cLo < 0 then some (wb, seen, .error .typeError)
        else
          sumRangeLoop fuel wb sheet rLo.toNat cLo.toNat (max ra rb).toNat cLo.toNat
            (max ca cb).toNat (jsInt 0) seen
      | _, _ => some (wb, seen, .error (.badAddress t))
termination_by structural fuel => fuel

/-- The rectangle loop of `sumRange`: row-major, coercing each cell's
result with `typeof v === 'number' ? v : Number(v)` and skipping `NaN`. -/
def sumRangeLoop : Nat → Workbook → List Char → Nat → Nat → Nat → Nat → Nat →
    JSNum → Seen → Option (Workbook × Seen × Except EngineError JSNum)
  | 0, _, _, _, _, _, _, _, _, _ => none
  | fuel + 1, wb, sheet, r, c, rHi, cLo, cHi, total, seen =>
    if rHi < r then some (wb, seen, .ok total)
    else if cHi < c then sumRangeLoop fuel wb sheet (r + 1) cLo rHi cLo cHi total seen
    else
      match evaluateCell fuel wb sheet r c seen with
      | none => none
      | some (wb', seen', .error e) => some (wb', seen', .error e)
      | some (wb', seen', .ok v) =>
        let n : JSNum :=
          match v with
          | some (.inr m) => m
          | other => jsNumberOfVal other
        sumRangeLoop fuel wb' sheet r (c + 1) rHi cLo cHi
          (if jsIsNaN n then total else jsAdd total n) seen'
termination_by structural fuel => fuel

/-- The effectful substitution of the SUM pass: each captured group is
replaced by `String(this.sumArgs(...))`. -/
def sumPassGo : Nat → Workbook → List Char → Seen → List Seg → List Char →
    Option (Workbook × Seen × Except EngineError (List Char))
  | 0, _, _, _, _, _ => none
  | _ + 1, wb, _, seen, [], acc => some (wb, seen, .ok acc)
  | fuel + 1, wb, sheet, seen, .lit cs :: segs, acc =>
    sumPassGo fuel wb sheet seen segs (acc ++ cs)
  | fuel + 1, wb, sheet, seen, .call args :: segs, acc =>
    match sumArgs fuel wb sheet args seen with
    | none => none
    | some (wb', seen', .error e) => some (wb', seen', .error e)
    | some (wb', seen', .ok v) =>
      let rep : List Char :=
        match v with
        | .inl s => s
        | .inr n => numToChars n
      sumPassGo fuel wb' sheet seen' segs (acc ++ rep)
termination_by structural fuel => fuel

/-- The effectful substitution of the reference pass: error strings are
substituted verbatim, numbers through `String(...)`. -/
def refPassGo : Nat → Workbook → List Char → Seen → List RSeg → List Char →
    Option (Workbook × Seen × Except EngineError (List Char))
  | 0, _, _, _, _, _ => none
  | _ + 1, wb, _, seen, [], acc => some (wb, seen, .ok acc)
  | fuel + 1, wb, sheet, seen, .lit cs :: segs, acc =>
    refPassGo fuel wb sheet seen segs (acc ++ cs)
  | fuel + 1, wb, sheet, seen, .tok cs :: segs, acc =>
    match evalRef fuel wb sheet cs seen with
    | none => none
    | some (wb', seen', .error e) => some (wb', seen', .error e)
    | some (wb', seen', .ok v) =>
      let rep : List Char :=
        match v with
        | .inl s => s
        | .inr n => numToChars n
      refPassGo fuel wb' sheet seen' segs (acc ++ rep)
termination_by structural fuel => fuel

end

/-- The cell loop of `evaluateAll` over one sheet; the `for` bounds
`s.rows.length` / `s.rows[r].length` are re-read from the live sheet on
every iteration (the grid can grow while being swept).  The sheet lookup
cannot fail: it existed at loop entry and evaluation never removes
sheets. -/
def evalSheetFrom : Nat → Workbook → List Char → Nat → Nat →
    Option (Workbook × Option EngineError)
  | 0, _, _, _, _ => none
  | fuel + 1, wb, name, r, c =>
    match lookupSheet wb.sheets name with
    | none => some (wb, none)
    | some s =>
      if r < s.rows.length then
        if c < (s.rows.getD r []).length then
          match evaluateCell fuel wb name r c [] with
          | none => none
          | some (wb', _, .error e) => some (wb', some e)
          | some (wb', _, .ok _) => evalSheetFrom fuel wb' name r (c + 1)
        else evalSheetFrom fuel wb name (r + 1) 0
      else some (wb, none)

def evalSheetsGo : Nat → Workbook → List (List Char) →
    Option (Workbook × Option EngineError)
  | _, wb, [] => some (wb, none)
  | fuel, wb, n :: ns =>
    match evalSheetFrom fuel wb n 0 0 with
    | none => none
    | some (wb', some e) => some (wb', some e)
    | some (wb', none) => evalSheetsGo fuel wb' ns

/-- `evaluateAll()` (sheet.ts lines 166–170): full row-major sweep of every
sheet, a fresh visited set per cell. -/
def evaluateAll (fuel : Nat) (wb : Workbook) : Option (Workbook × Option EngineError) :=
  evalSheetsGo fuel wb (wb.sheets.map (fun s => s.name))

/-! ## Serialization boundary: import (sheet.ts lines 313–342) -/

/-- One sheet of the import payload; the cell-field coalescing
(`cell?.value ?? null` etc.) of the source produces exactly the `Cell`
record, so the payload carries cells directly. -/
structure ImportSheet where
  name : List Char
  rows : List (List Cell)
deriving DecidableEq

structure ImportWorkbook where
  sheets : List ImportSheet
deriving DecidableEq

/-- `loadFromJSON(workbookData)`: replace the sheet set, insert the
default sheet if none was declared, reset event/checkpoint history,
record the `import` checkpoint, recompute everything. -/
def loadFromJSON (fuel : Nat) (wb : Workbook) (input : ImportWorkbook) :
    Option (Workbook × Option EngineError) :=
  let wb1 := { wb with sheets := ([] : List Sheet) }
  let wb2 := input.sheets.foldl
    (fun w s => { w with sheets := mapSet w.sheets ⟨s.name, s.rows⟩ }) wb1
  let res :=
    if wb2.sheets.isEmpty then createSheet wb2 "Sheet1".data else (wb2, none)
  match res with
  | (wb3, some e) => some (wb3, some e)
  | (wb3, none) =>
    let wb4 := { wb3 with events := [], checkpoints := [] }
    let wb5 := checkpoint wb4 "import".data
    evaluateAll fuel wb5

/-- `new SheetModel()`: one default sheet plus an initial checkpoint. -/
def initialModel : Workbook :=
  checkpoint (createSheet emptyWorkbook "Sheet1".data).1 "init".data

/-! ## Auxiliary lemmas on the string helpers -/

theorem takeWhile_all_eq {p : Char → Bool} {l : List Char} (h : ∀ x ∈ l, p x = true) :
    l.takeWhile p = l := by
  induction l with
  | nil => rfl
  | cons a l ih =>
    have ha := h a (by simp)
    simp [List.takeWhile, ha, ih (fun x hx => h x (by simp [hx]))]

theorem dropWhile_all_eq {p : Char → Bool} {l : List Char} (h : ∀ x ∈ l, p x = true) :
    l.dropWhile p = [] := by
  induction l with
  | nil => rfl
  | cons a l ih =>
    have ha := h a (by simp)
    simp [List.dropWhile, ha, ih (fun x hx => h x (by simp [hx]))]

theorem dropWhile_head_false {p : Char → Bool} {l : List Char}
    (h : ∀ x ∈ l, p x = false) : l.dropWhile p = l := by
  cases l with
  | nil => rfl
  | cons a l => simp [List.dropWhile, h a (by simp)]

theorem trimL_no_ws {l : List Char} (h : ∀ x ∈ l, isWsCh x = false) : trimL l = l := by
  unfold trimL
  rw [dropWhile_head_false h, dropWhile_head_false (fun x hx => h x (List.mem_reverse.mp hx)),
    List.reverse_reverse]

/-! ## Claim theorems -/

/-- **C1.** For every coordinate with column in [0, 700] and row in
[0, 10000], encoding with `rcToA1` and then decoding with `a1ToRc`
returns exactly the original coordinates; the encoding is base-26 with
column 0 ↦ "A", column 25 ↦ "Z", column 26 ↦ "AA". -/
theorem c1_codec_roundtrip (r c : Nat) (hr : r ≤ 10000) (hc : c ≤ 700) :
    a1ToRc (rcToA1 r c) = some ((r : Int), (c : Int)) ∧
    rcToA1 0 0 = "A1".data ∧ rcToA1 0 25 = "Z1".data ∧ rcToA1 0 26 = "AA1".data :=
  ⟨a1ToRc_rcToA1 r c, by decide, by decide, by decide⟩

theorem c1_codec_roundtrip_witness :
    (9 ≤ 10000 ∧ 27 ≤ 700) ∧
      (a1ToRc (rcToA1 9 27) = some ((9 : Int), (27 : Int)) ∧
       rcToA1 0 0 = "A1".data ∧ rcToA1 0 25 = "Z1".data ∧ rcToA1 0 26 = "AA1".data) :=
  ⟨by omega, c1_codec_roundtrip 9 27 (by omega) (by omega)⟩

/-! ### Concrete workbook scenarios used by the claims -/

def sheet1 : List Char := "Sheet1".data

/-- `A1` holds the self-referential formula `=A1`. -/
def wbCycle : Workbook :=
  (setFormulas initialModel ⟨sheet1, 0, 0, 0, 0⟩ [[some "=A1".data]]).1

/-- ... and `B1` holds `=A1+10`. -/
def wbCycleDep : Workbook :=
  (setFormulas wbCycle ⟨sheet1, 0, 1, 0, 1⟩ [[some "=A1+10".data]]).1

/-- The workbook state after evaluating `A1` of `wbCycleDep`. -/
def wbAfterA1 : Workbook :=
  match evaluateCell 20 wbCycleDep sheet1 0 0 [] with
  | some p => p.1
  | none => wbCycleDep

/-- **C4.** With `A1 = "=A1"`, evaluating `A1` yields and stores the
sentinel `"#REF!"`; with `B1 = "=A1+10"`, evaluating `B1` afterwards also
yields and stores exactly `"#REF!"` — an in-band value, not an exception
(the result is `.ok`) and not a concatenation with the rest of the
expression text. -/
theorem c4_cycle_sentinel :
    (evaluateCell 20 wbCycleDep sheet1 0 0 []).map
        (fun p => (p.2.2, (gridGet (rowsOf p.1 sheet1) 0 0).value))
      = some (.ok (some (.inl "#REF!".data)), some (.inl "#REF!".data)) ∧
    (evaluateCell 20 wbAfterA1 sheet1 0 1 []).map
        (fun p => (p.2.2, (gridGet (rowsOf p.1 sheet1) 0 1).value))
      = some (.ok (some (.inl "#REF!".data)), some (.inl "#REF!".data)) := by
  constructor
  · decide
  · decide

/-- `A1` holds `=1/0`. -/
def wbDivZero : Workbook :=
  (setFormulas initialModel ⟨sheet1, 0, 0, 0, 0⟩ [[some "=1/0".data]]).1

/-- **C6 counterexample.** Division by zero does *not* store `"#ERROR!"`:
evaluating `=1/0` stores the non-finite number `Infinity` (JavaScript's
`1/0` is `Infinity`, and `typeof Infinity === 'number'`, so the source
stores it verbatim). -/
theorem c6_counterexample :
    (evaluateCell 20 wbDivZero sheet1 0 0 []).map
        (fun p => (p.2.2, (gridGet (rowsOf p.1 sheet1) 0 0).value))
      = some (.ok (some (.inr .inf)), some (.inr .inf)) ∧
    (some (Sum.inr JSNum.inf) : CellVal) ≠ some (.inl "#ERROR!".data) := by
  constructor
  · decide
  · decide

/-- **C6 (amended).** When the arithmetic evaluation of the residual
expression *throws*, the cell's stored value becomes the in-band sentinel
`"#ERROR!"` (no exception escapes); a successful evaluation stores the
resulting number verbatim even when it is non-finite. -/
theorem c6_arith_error_inband :
    (∀ wb sheet r c expr, containsSub "#REF!".data expr = false →
      containsSub "#ERROR!".data expr = false → jsEval expr = .error () →
      evalFinal wb sheet r c expr
        = (setCellValue wb sheet r c (some (.inl "#ERROR!".data)),
           some (.inl "#ERROR!".data))) ∧
    (∀ wb sheet r c expr n, containsSub "#REF!".data expr = false →
      containsSub "#ERROR!".data expr = false → jsEval expr = .ok n →
      evalFinal wb sheet r c expr
        = (setCellValue wb sheet r c (some (.inr n)), some (.inr n))) := by
  constructor
  · intro wb sheet r c expr h1 h2 h3
    simp [evalFinal, h1, h2, h3]
  · intro wb sheet r c expr n h1 h2 h3
    simp [evalFinal, h1, h2, h3]

theorem c6_arith_error_inband_witness :
    (containsSub "#REF!".data "1+".data = false ∧
     containsSub "#ERROR!".data "1+".data = false ∧ jsEval "1+".data = .error () ∧
     jsEval "1/0".data = .ok .inf) ∧
    evalFinal initialModel sheet1 0 0 "1+".data
      = (setCellValue initialModel sheet1 0 0 (some (.inl "#ERROR!".data)),
         some (.inl "#ERROR!".data)) ∧
    evalFinal initialModel sheet1 0 0 "1/0".data
      = (setCellValue initialModel sheet1 0 0 (some (.inr .inf)), some (.inr .inf)) :=
  ⟨by decide,
   c6_arith_error_inband.1 initialModel sheet1 0 0 "1+".data (by decide) (by decide)
     (by decide),
   c6_arith_error_inband.2 initialModel sheet1 0 0 "1/0".data .inf (by decide) (by decide)
     (by decide)⟩

/-- **C7 counterexample.** An aggregation argument written with a
thousands separator does *not* contribute its full numeric value: the
argument list is split at every comma before literals are parsed, so
`SUM(1,000)` totals `1` (the pieces `"1"` and `"000"` contribute `1` and
`0`), not `1000`. -/
theorem c7_counterexample :
    sumArgs 10 initialModel sheet1 "1,000".data []
      = some (initialModel, [], .ok (.inr (jsInt 1))) ∧ jsInt 1 ≠ jsInt 1000 := by
  constructor
  · decide
  · decide

theorem digitsNotWs {t : List Char} (hdig : ∀ ch ∈ t, isDigitCh ch = true) :
    ∀ x ∈ t, isWsCh x = false := by
  intro x hx
  have := hdig x hx
  unfold isDigitCh at this
  simp only [Bool.and_eq_true, decide_eq_true_eq] at this
  unfold isWsCh
  simp only [Bool.or_eq_false_iff]
  refine ⟨⟨⟨?_, ?_⟩, ?_⟩, ?_⟩ <;> simp only [beq_eq_false_iff_ne, ne_eq] <;> omega

theorem jsNumberOfChars_digits {t : List Char} (hne : t ≠ [])
    (hdig : ∀ ch ∈ t, isDigitCh ch = true) :
    jsNumberOfChars t = jsInt (digitsVal t) := by
  obtain ⟨d, rest, rfl⟩ : ∃ d rest, t = d :: rest := by
    cases t with
    | nil => exact absurd rfl hne
    | cons d rest => exact ⟨d, rest, rfl⟩
  have hd := hdig d (by simp)
  have hpu : parseUnsignedNum (d :: rest) = .fin ⟨(digitsVal (d :: rest) : Int), 1⟩ := by
    unfold parseUnsignedNum
    have hni : ¬ (d :: rest) = "Infinity".data := by
      intro hcontra
      have hdI : d = 'I' := by
        have := congrArg List.head? hcontra
        simpa using this
      rw [hdI] at hd
      exact absurd hd (by decide)
    rw [if_neg hni]
    unfold parseDec
    rw [takeWhile_all_eq hdig, dropWhile_all_eq hdig]
    simp
  have htrim : trimL (d :: rest) = d :: rest := trimL_no_ws (digitsNotWs hdig)
  have hdm : ¬ d = '-' := by
    intro hcontra
    rw [hcontra] at hd
    exact absurd hd (by decide)
  have hdp : ¬ d = '+' := by
    intro hcontra
    rw [hcontra] at hd
    exact absurd hd (by decide)
  have hstep : jsNumberOfChars (d :: rest) = parseUnsignedNum (d :: rest) := by
    unfold jsNumberOfChars
    rw [htrim]
    simp [if_neg hdm, if_neg hdp]
  rw [hstep, hpu]
  rfl

theorem digit_ne {ch c : Char} (h : isDigitCh ch = true) (hc : isDigitCh c = false) :
    ¬ ch = c := by
  intro hcontra
  rw [hcontra, hc] at h
  exact Bool.false_ne_true h

theorem digit_not_alpha {ch : Char} (h : isDigitCh ch = true) : isAlphaCh ch = false := by
  unfold isDigitCh at h
  simp only [Bool.and_eq_true, decide_eq_true_eq] at h
  rw [Bool.eq_false_iff]
  intro hcontra
  unfold isAlphaCh at hcontra
  simp only [Bool.or_eq_true, Bool.and_eq_true, decide_eq_true_eq] at hcontra
  omega

theorem isRangeTok_digits {t : List Char} (hdig : ∀ ch ∈ t, isDigitCh ch = true) :
    isRangeTok t = false := by
  unfold isRangeTok
  have hall : ∀ x ∈ t, (fun ch => decide (¬ ch = ':')) x = true := by
    intro x hx
    simp only [decide_eq_true_eq]
    exact digit_ne (hdig x hx) (by decide)
  rw [dropWhile_all_eq hall]

theorem isRefTok_digits {t : List Char} (hne : t ≠ [])
    (hdig : ∀ ch ∈ t, isDigitCh ch = true) : isRefTok t = false := by
  obtain ⟨d, rest, rfl⟩ : ∃ d rest, t = d :: rest := by
    cases t with
    | nil => exact absurd rfl hne
    | cons d rest => exact ⟨d, rest, rfl⟩
  unfold isRefTok
  simp [List.takeWhile, digit_not_alpha (hdig d (by simp))]

/-- **C7 (amended).** The aggregation argument list is split at *every*
comma before any literal parsing, so each argument is comma-free; an
argument that is a plain digit literal contributes exactly its numeric
value to the running total.  A numeric literal written with thousands
separators is therefore split into several independent digit arguments
and does not contribute its full value (`SUM(1,000)` totals 1, see the
counterexample). -/
theorem c7_digit_literal_term (fuel : Nat) (wb : Workbook) (sheet t : List Char)
    (ts : List (List Char)) (total : JSNum) (seen : Seen) (hne : t ≠ [])
    (hdig : ∀ ch ∈ t, isDigitCh ch = true) :
    sumTerm (fuel + 1) wb sheet t seen
      = some (wb, seen, .ok (.inr (jsInt (digitsVal t)))) ∧
    sumArgsGo (fuel + 2) wb sheet (t :: ts) total seen
      = sumArgsGo (fuel + 1) wb sheet ts (jsAdd total (jsInt (digitsVal t))) seen := by
  have htrim : trimL t = t := trimL_no_ws (digitsNotWs hdig)
  have hcomma : removeCommas t = t := by
    unfold removeCommas
    rw [List.filter_eq_self]
    intro x hx
    simp only [decide_eq_true_eq]
    exact digit_ne (hdig x hx) (by decide)
  have hterm : sumTerm (fuel + 1) wb sheet t seen
      = some (wb, seen, .ok (.inr (jsInt (digitsVal t)))) := by
    unfold sumTerm
    simp only [htrim, isRangeTok_digits hdig, isRefTok_digits hne hdig,
      Bool.false_eq_true, if_false, hcomma, jsNumberOfChars_digits hne hdig]
    simp [jsIsFinite, jsInt]
  refine ⟨hterm, ?_⟩
  conv_lhs => rw [sumArgsGo]
  rw [hterm]

theorem c7_digit_literal_term_witness :
    (("12".data : List Char) ≠ [] ∧ ∀ ch ∈ "12".data, isDigitCh ch = true) ∧
    (sumTerm 4 initialModel sheet1 "12".data []
       = some (initialModel, [], .ok (.inr (jsInt 12))) ∧
     sumArgsGo 5 initialModel sheet1 ["12".data] (jsInt 0) []
       = sumArgsGo 4 initialModel sheet1 [] (jsAdd (jsInt 0) (jsInt 12)) []) :=
  ⟨⟨by decide, by decide⟩,
   c7_digit_literal_term 3 initialModel sheet1 "12".data [] (jsInt 0) [] (by decide)
     (by decide)⟩

/-- **C8.** `createSheet` on an existing name fails with the
`DuplicateSheet` error and `deleteSheet` on a missing name fails with the
`SheetNotFound` error; in both cases the workbook — its sheet map and its
event log — is returned entirely unchanged (the source throws before any
mutation). -/
theorem c8_structural_failures :
    (∀ wb name, hasSheet wb.sheets name = true →
      createSheet wb name = (wb, some .duplicateSheet)) ∧
    (∀ wb name, lookupSheet wb.sheets name = none →
      deleteSheet wb name = (wb, some (.sheetNotFound name))) := by
  constructor
  · intro wb name h
    simp [createSheet, h]
  · intro wb name h
    simp [deleteSheet, h]

theorem c8_structural_failures_witness :
    (hasSheet initialModel.sheets "Sheet1".data = true ∧
     lookupSheet initialModel.sheets "Ghost".data = none) ∧
    createSheet initialModel "Sheet1".data = (initialModel, some .duplicateSheet) ∧
    deleteSheet initialModel "Ghost".data
      = (initialModel, some (.sheetNotFound "Ghost".data)) :=
  ⟨⟨by decide, by decide⟩,
   c8_structural_failures.1 initialModel "Sheet1".data (by decide),
   c8_structural_failures.2 initialModel "Ghost".data (by decide)⟩

/-- **C9.** Importing a workbook whose declared sheet list is empty
leaves exactly one sheet (the engine default `Sheet1`, empty), an empty
event log, and exactly one checkpoint — the fresh `import` checkpoint at
log position 0 — regardless of the prior workbook state: all prior event
and checkpoint history is discarded. -/
theorem c9_import_empty (fuel : Nat) (wb : Workbook) :
    loadFromJSON (fuel + 1) wb ⟨[]⟩
      = some ({ sheets := [⟨"Sheet1".data, []⟩],
                checkpoints := [⟨"import".data, 0⟩], events := [] }, none) := by
  simp [loadFromJSON, createSheet, hasSheet, lookupSheet, mapSet, appendEvent,
    checkpoint, evaluateAll, evalSheetsGo, evalSheetFrom]

/-- **C3 counterexample.** Undo's inverse replay *does* append a new
event: on a fresh model (whose log holds the one `createSheet` event of
the constructor) `undo()` pops that event and replays `deleteSheet`,
which appends its own event — the log still has length 1 afterwards and
differs from the claimed `dropLast` of the original log. -/
theorem c3_counterexample :
    (undo initialModel).1.events.length = 1 ∧ initialModel.events.length = 1 ∧
    (undo initialModel).1.events ≠ initialModel.events.dropLast := by
  refine ⟨by decide, by decide, by decide⟩

/-- **C5.** (1) If the first argument of an aggregation call evaluates to
an error string, the whole aggregation immediately returns that same
string, in exactly the workbook/visited-set state left by that first
argument — the remaining arguments (e.g. a following range) are never
evaluated.  (2) A range-shaped argument that completes never yields an
error string: `sumRange` produces a number (non-numeric and error cell
results are coerced inside the range summation). -/
theorem c5_sum_short_circuit :
    (∀ g wb sheet args t1 ts seen wb' seen' s,
      splitOnComma args = t1 :: ts →
      sumTerm g wb sheet t1 seen = some (wb', seen', .ok (.inl s)) →
      sumArgs (g + 2) wb sheet args seen = some (wb', seen', .ok (.inl s))) ∧
    (∀ g wb sheet t seen wb' seen' v,
      isRangeTok (trimL t) = true →
      sumTerm (g + 1) wb sheet t seen = some (wb', seen', .ok v) →
      ∃ n, v = .inr n) := by
  constructor
  · intro g wb sheet args t1 ts seen wb' seen' s hsplit hterm
    match g, hterm with
    | g + 1, hterm =>
      unfold sumArgs
      rw [hsplit]
      conv_lhs => rw [sumArgsGo]
      rw [hterm]
  · intro g wb sheet t seen wb' seen' v hrange hterm
    unfold sumTerm at hterm
    simp only [hrange, if_true] at hterm
    cases hsr : sumRange g wb sheet (trimL t) seen with
    | none => rw [hsr] at hterm; exact absurd hterm (by simp)
    | some p =>
      obtain ⟨wbr, seenr, res⟩ := p
      rw [hsr] at hterm
      cases res with
      | error e => simp at hterm
      | ok n =>
        simp only [Option.some.injEq, Prod.mk.injEq, Except.ok.injEq] at hterm
        exact ⟨n, hterm.2.2.symm⟩

/-- The state and result of evaluating the single-reference argument
`A1` (a `#REF!` cycle) of the witness aggregation. -/
def c5ErrRes : Workbook × Seen × Except EngineError NumStr :=
  (sumTerm 10 wbCycle sheet1 "A1".data []).getD (wbCycle, [], .ok (.inr (jsInt 0)))

/-- The state and result of evaluating the range argument `B2:B4` alone
over the fresh model. -/
def c5RangeRes : Workbook × Seen × Except EngineError NumStr :=
  (sumTerm 10 initialModel sheet1 "B2:B4".data []).getD
    (initialModel, [], .ok (.inl []))

theorem c5_sum_short_circuit_witness :
    (splitOnComma "A1, B2:B4".data = ["A1".data, " B2:B4".data] ∧
     sumTerm 10 wbCycle sheet1 "A1".data []
       = some (c5ErrRes.1, c5ErrRes.2.1, .ok (.inl "#REF!".data)) ∧
     isRangeTok (trimL "B2:B4".data) = true ∧
     sumTerm 10 initialModel sheet1 "B2:B4".data []
       = some (c5RangeRes.1, c5RangeRes.2.1, .ok (.inr (jsInt 0)))) ∧
    sumArgs 12 wbCycle sheet1 "A1, B2:B4".data []
      = some (c5ErrRes.1, c5ErrRes.2.1, .ok (.inl "#REF!".data)) ∧
    (∃ n, (Sum.inr (jsInt 0) : NumStr) = .inr n) :=
  ⟨⟨by decide, by decide, by decide, by decide⟩,
   c5_sum_short_circuit.1 10 wbCycle sheet1 "A1, B2:B4".data "A1".data
     [" B2:B4".data] [] c5ErrRes.1 c5ErrRes.2.1 "#REF!".data (by decide) (by decide),
   c5_sum_short_circuit.2 9 initialModel sheet1 "B2:B4".data [] c5RangeRes.1
     c5RangeRes.2.1 (.inr (jsInt 0)) (by decide) (by decide)⟩

/-! ### Event-log discipline (C3) -/

theorem events_ensureSize (wb : Workbook) (name : List Char) (nr nc : Nat) :
    (ensureSize wb name nr nc).events = wb.events := by
  unfold ensureSize
  cases lookupSheet wb.sheets name <;> rfl

/-- Every dispatched operation only ever appends to the event log:
nothing when it fails (or is `noop`), exactly one event when a non-`noop`
operation succeeds. -/
theorem dispatch_appends (wb : Workbook) (op : Op) (internal : Bool) :
    ∃ tail, (dispatch wb op internal).1.events = wb.events ++ tail ∧ tail.length ≤ 1 ∧
      (op = .noop → tail = []) ∧
      ((dispatch wb op internal).2 = none → op ≠ .noop → tail.length = 1) := by
  cases op with
  | createSheet name =>
    by_cases h : hasSheet wb.sheets name
    · exact ⟨[], by simp [dispatch, createSheet, h], by simp, by simp,
        by simp [dispatch, createSheet, h]⟩
    · refine ⟨[⟨.createSheet name, .deleteSheet name, "create ".data ++ name⟩], ?_, by simp,
        by simp, by simp⟩
      simp [dispatch, createSheet, h, appendEvent]
  | deleteSheet name =>
    cases h : lookupSheet wb.sheets name with
    | none =>
      exact ⟨[], by simp [dispatch, deleteSheet, h], by simp, by simp,
        by simp [dispatch, deleteSheet, h]⟩
    | some s =>
      refine ⟨[⟨.deleteSheet name, .restoreSheet s, "delete ".data ++ name⟩], ?_, by simp,
        by simp, by simp⟩
      simp [dispatch, deleteSheet, h, appendEvent]
  | restoreSheet s =>
    refine ⟨[⟨.restoreSheet s, .deleteSheet s.name, "restore ".data ++ s.name⟩], ?_, by simp,
      by simp, by simp⟩
    simp [dispatch, restoreSheet, appendEvent]
  | setValues rg values prov =>
    cases h : lookupSheet wb.sheets rg.sheet with
    | none =>
      exact ⟨[], by simp [dispatch, setValues, snapshot, h], by simp, by simp,
        by simp [dispatch, setValues, snapshot, h]⟩
    | some s =>
      refine ⟨[⟨.setValues rg values prov,
        .setCells rg (snapshotRect
          (rowsOf (ensureSize wb rg.sheet (rg.r2 + 1) (rg.c2 + 1)) rg.sheet)
          rg.r1 rg.c1 rg.r2 rg.c2),
        "setValues ".data ++ rg.sheet ++ "!".data ++ rcToA1 rg.r1 rg.c1⟩],
        ?_, by simp, by simp, by simp⟩
      simp [dispatch, setValues, snapshot, h, appendEvent, events_ensureSize]
  | setFormulas rg formulas =>
    cases h : lookupSheet wb.sheets rg.sheet with
    | none =>
      exact ⟨[], by simp [dispatch, setFormulas, snapshot, h], by simp, by simp,
        by simp [dispatch, setFormulas, snapshot, h]⟩
    | some s =>
      refine ⟨[⟨.setFormulas rg formulas,
        .setCells rg (snapshotRect
          (rowsOf (ensureSize wb rg.sheet (rg.r2 + 1) (rg.c2 + 1)) rg.sheet)
          rg.r1 rg.c1 rg.r2 rg.c2),
        "setFormulas ".data ++ rg.sheet ++ "!".data ++ rcToA1 rg.r1 rg.c1⟩],
        ?_, by simp, by simp, by simp⟩
      simp [dispatch, setFormulas, snapshot, h, appendEvent, events_ensureSize]
  | formatRange rg fmt =>
    cases h : lookupSheet wb.sheets rg.sheet with
    | none =>
      exact ⟨[], by simp [dispatch, formatRange, snapshot, h], by simp, by simp,
        by simp [dispatch, formatRange, snapshot, h]⟩
    | some s =>
      refine ⟨[⟨.formatRange rg fmt,
        .setCells rg (snapshotRect
          (rowsOf (ensureSize wb rg.sheet (rg.r2 + 1) (rg.c2 + 1)) rg.sheet)
          rg.r1 rg.c1 rg.r2 rg.c2),
        "formatRange ".data ++ rg.sheet⟩],
        ?_, by simp, by simp, by simp⟩
      simp [dispatch, formatRange, snapshot, h, appendEvent, events_ensureSize]
  | linkProvenance rg prov =>
    cases h : lookupSheet wb.sheets rg.sheet with
    | none =>
      exact ⟨[], by simp [dispatch, linkProvenance, snapshot, h], by simp, by simp,
        by simp [dispatch, linkProvenance, snapshot, h]⟩
    | some s =>
      refine ⟨[⟨.linkProvenance rg prov,
        .setCells rg (snapshotRect
          (rowsOf (ensureSize wb rg.sheet (rg.r2 + 1) (rg.c2 + 1)) rg.sheet)
          rg.r1 rg.c1 rg.r2 rg.c2),
        "linkProvenance ".data ++ rg.sheet⟩],
        ?_, by simp, by simp, by simp⟩
      simp [dispatch, linkProvenance, snapshot, h, appendEvent, events_ensureSize]
  | setCells rg cells =>
    cases h : lookupSheet wb.sheets rg.sheet with
    | none =>
      exact ⟨[], by simp [dispatch, setCells, h], by simp, by simp,
        by simp [dispatch, setCells, h]⟩
    | some s =>
      refine ⟨[⟨.setCells rg cells, .noop, "setCells".data⟩],
        ?_, by simp, by simp, by simp⟩
      simp [dispatch, setCells, h, appendEvent, events_ensureSize]
  | noop => exact ⟨[], by simp [dispatch], by simp, by simp, by simp [dispatch]⟩

/-- **C3 (amended).** The event log is only ever extended by appending;
each `undo()` call removes exactly one trailing event and replays its
inverse — but the replay goes through the ordinary dispatcher and itself
appends one new event whenever the inverse succeeds and is not `noop`
(only `noop` replays, and failed replays, append nothing), so repeated
`undo()` calls do not walk backward by simple truncation. -/
theorem c3_append_only_and_undo :
    (∀ wb op internal, wb.events <+: (dispatch wb op internal).1.events) ∧
    (∀ wb init e, wb.events = init ++ [e] →
      ∃ tail, (undo wb).1.events = init ++ tail ∧ tail.length ≤ 1 ∧
        (undo wb).2.1 = some e ∧
        (e.inverse = .noop → tail = []) ∧
        ((undo wb).2.2 = none → e.inverse ≠ .noop → tail.length = 1)) := by
  constructor
  · intro wb op internal
    obtain ⟨tail, ht, -, -, -⟩ := dispatch_appends wb op internal
    exact ht ▸ List.prefix_append wb.events tail
  · intro wb init e hev
    have hlast : wb.events.getLast? = some e := by
      rw [hev]
      simp
    have hdrop : wb.events.dropLast = init := by
      rw [hev]
      simp
    obtain ⟨tail, ht, hlen, hnoop, hone⟩ :=
      dispatch_appends { wb with events := init } e.inverse true
    refine ⟨tail, ?_, hlen, ?_, ?_, ?_⟩
    · unfold undo
      rw [hlast]
      simpa [hdrop] using ht
    · unfold undo
      rw [hlast]
    · intro hn
      exact hnoop hn
    · intro herr hn
      apply hone ?_ hn
      unfold undo at herr
      rw [hlast] at herr
      simpa [hdrop] using herr

theorem c3_append_only_and_undo_witness :
    (initialModel.events
        = [] ++ [⟨.createSheet "Sheet1".data, .deleteSheet "Sheet1".data,
                  "create ".data ++ "Sheet1".data⟩]) ∧
    (∃ tail, (undo initialModel).1.events = [] ++ tail ∧ tail.length ≤ 1 ∧
      (undo initialModel).2.1
        = some ⟨.createSheet "Sheet1".data, .deleteSheet "Sheet1".data,
                "create ".data ++ "Sheet1".data⟩ ∧
      ((SheetEvent.mk (.createSheet "Sheet1".data) (.deleteSheet "Sheet1".data)
          ("create ".data ++ "Sheet1".data)).inverse = .noop → tail = []) ∧
      ((undo initialModel).2.2 = none →
        (SheetEvent.mk (.createSheet "Sheet1".data) (.deleteSheet "Sheet1".data)
          ("create ".data ++ "Sheet1".data)).inverse ≠ .noop → tail.length = 1)) :=
  ⟨by decide,
   c3_append_only_and_undo.2 initialModel []
     ⟨.createSheet "Sheet1".data, .deleteSheet "Sheet1".data,
      "create ".data ++ "Sheet1".data⟩ (by decide)⟩

/-! ### Grid lemmas (towards C2) -/

theorem gridSet_length (g : List (List Cell)) (r c : Nat) (cell : Cell) :
    (gridSet g r c cell).length = g.length := by
  unfold gridSet
  exact List.length_set g r _

theorem getD_row_gridSet (g : List (List Cell)) (r c : Nat) (cell : Cell) (i : Nat) :
    ((gridSet g r c cell).getD i []).length = (g.getD i []).length := by
  unfold gridSet
  simp only [List.getD_eq_getElem?_getD, List.getElem?_set]
  by_cases h : r = i
  · subst h
    by_cases hr : r < g.length
    · simp [hr, List.getElem?_eq_getElem hr]
    · simp [hr, List.getElem?_eq_none (Nat.le_of_not_lt hr)]
  · simp [h]

theorem gridGet_gridSet_self (g : List (List Cell)) (r c : Nat) (cell : Cell)
    (hr : r < g.length) (hc : c < (g.getD r []).length) :
    gridGet (gridSet g r c cell) r c = cell := by
  unfold gridGet gridSet
  simp only [List.getD_eq_getElem?_getD, List.getElem?_set, if_pos rfl, if_pos hr]
  have hc' : c < ((g[r]?).getD []).length := by
    simpa [List.getD_eq_getElem?_getD] using hc
  simp [List.getElem?_set, if_pos rfl, hc']

theorem gridGet_gridSet_other (g : List (List Cell)) (r c : Nat) (cell : Cell)
    (r' c' : Nat) (h : ¬ (r' = r ∧ c' = c)) :
    gridGet (gridSet g r c cell) r' c' = gridGet g r' c' := by
  unfold gridGet gridSet
  simp only [List.getD_eq_getElem?_getD, List.getElem?_set]
  by_cases hrr : r = r'
  · subst hrr
    have hcc : ¬ c' = c := fun hcontra => h ⟨rfl, hcontra⟩
    by_cases hr : r < g.length
    · simp only [if_pos rfl, if_pos hr, List.getElem?_eq_getElem hr]
      simp [List.getElem?_set, Ne.symm hcc, List.getD_eq_getElem?_getD]
    · simp [hr, List.getElem?_eq_none (Nat.le_of_not_lt hr)]
  · simp [hrr]

theorem padGrid_length (g : List (List Cell)) (nr nc : Nat) :
    (padGrid g nr nc).length = max g.length nr := by
  unfold padGrid
  simp only [List.length_map, List.length_append, List.length_replicate]
  omega

theorem padGrid_row_length (g : List (List Cell)) (nr nc : Nat) (i : Nat)
    (h : i < (padGrid g nr nc).length) :
    nc ≤ ((padGrid g nr nc).getD i []).length := by
  unfold padGrid at h ⊢
  rw [List.getD_eq_getElem?_getD, List.getElem?_map]
  rw [List.length_map] at h
  rw [List.getElem?_eq_getElem h]
  simp only [Option.map_some', Option.getD_some, List.length_append, List.length_replicate]
  omega

theorem gridGet_padGrid (g : List (List Cell)) (nr nc : Nat) (r c : Nat) :
    gridGet (padGrid g nr nc) r c = gridGet g r c := by
  by_cases hr : r < g.length
  · have hrow : (padGrid g nr nc)[r]?
        = some (g[r] ++ List.replicate (nc - g[r].length) defaultCell) := by
      unfold padGrid
      rw [List.getElem?_map, List.getElem?_append, if_pos hr, List.getElem?_eq_getElem hr]
      rfl
    unfold gridGet
    simp only [List.getD_eq_getElem?_getD]
    rw [hrow]
    simp only [Option.getD_some, List.getElem?_append, List.getElem?_eq_getElem hr,
      Option.getD_some]
    by_cases hc : c < g[r].length
    · rw [if_pos hc]
    · rw [if_neg hc, List.getElem?_replicate]
      rw [List.getElem?_eq_none (by omega : g[r].length ≤ c)]
      by_cases hc2 : c - g[r].length < nc - g[r].length
      · simp [hc2]
      · simp [hc2]
  · have hcase : (padGrid g nr nc)[r]? = none ∨
        (padGrid g nr nc)[r]? = some ([] ++ List.replicate (nc - 0) defaultCell) := by
      unfold padGrid
      rw [List.getElem?_map, List.getElem?_append, if_neg hr, List.getElem?_replicate]
      by_cases hr2 : r - g.length < nr - g.length
      · right
        rw [if_pos hr2]
        rfl
      · left
        rw [if_neg hr2]
        rfl
    unfold gridGet
    simp only [List.getD_eq_getElem?_getD]
    rw [List.getElem?_eq_none (Nat.le_of_not_lt hr)]
    cases hcase with
    | inl hnone => rw [hnone]
    | inr hsome =>
      rw [hsome]
      simp only [List.nil_append, Option.getD_some, Option.getD_none,
        List.getD_eq_getElem?_getD, List.getElem?_replicate, List.getElem?_nil]
      split <;> rfl

/-! Write-loop lemmas. -/

theorem writeCellsRow_length (row : List Cell) :
    ∀ g r c, (writeCellsRow g r c row).length = g.length := by
  induction row with
  | nil => intro g r c; rfl
  | cons cell rest ih =>
    intro g r c
    unfold writeCellsRow
    rw [ih, gridSet_length]

theorem writeCellsRow_row_length (row : List Cell) :
    ∀ g r c i, ((writeCellsRow g r c row).getD i []).length = (g.getD i []).length := by
  induction row with
  | nil => intro g r c i; rfl
  | cons cell rest ih =>
    intro g r c i
    unfold writeCellsRow
    rw [ih, getD_row_gridSet]

theorem writeCellsRow_other (row : List Cell) :
    ∀ g r c0 r' c', (r' ≠ r ∨ c' < c0) →
      gridGet (writeCellsRow g r c0 row) r' c' = gridGet g r' c' := by
  induction row with
  | nil => intro g r c0 r' c' _; rfl
  | cons cell rest ih =>
    intro g r c0 r' c' h
    unfold writeCellsRow
    rw [ih _ _ _ _ _ (by omega : r' ≠ r ∨ c' < c0 + 1)]
    apply gridGet_gridSet_other
    intro hcontra
    rcases h with h | h
    · exact h hcontra.1
    · omega

theorem writeCellsRow_self (row : List Cell) :
    ∀ g r c0 j, j < row.length → r < g.length → c0 + row.length ≤ (g.getD r []).length →
      gridGet (writeCellsRow g r c0 row) r (c0 + j) = row.getD j defaultCell := by
  induction row with
  | nil =>
    intro g r c0 j hj _ _
    exact absurd hj (by simp)
  | cons cell rest ih =>
    intro g r c0 j hj hr hlen
    unfold writeCellsRow
    match j with
    | 0 =>
      rw [writeCellsRow_other rest _ _ _ _ _ (Or.inr (by omega))]
      simpa using gridGet_gridSet_self g r c0 cell hr
        (by simp only [List.length_cons] at hlen; omega)
    | j + 1 =>
      have heq : c0 + (j + 1) = (c0 + 1) + j := by omega
      rw [heq]
      rw [ih (gridSet g r c0 cell) r (c0 + 1) j (by simpa using hj)
        (by rw [gridSet_length]; exact hr)
        (by rw [getD_row_gridSet]; simp only [List.length_cons] at hlen; omega)]
      rfl

theorem writeCells_length (cells : List (List Cell)) :
    ∀ g r0 c0, (writeCells g r0 c0 cells).length = g.length := by
  induction cells with
  | nil => intro g r0 c0; rfl
  | cons row rest ih =>
    intro g r0 c0
    unfold writeCells
    rw [ih, writeCellsRow_length]

theorem writeCells_row_length (cells : List (List Cell)) :
    ∀ g r0 c0 i, ((writeCells g r0 c0 cells).getD i []).length = (g.getD i []).length := by
  induction cells with
  | nil => intro g r0 c0 i; rfl
  | cons row rest ih =>
    intro g r0 c0 i
    unfold writeCells
    rw [ih, writeCellsRow_row_length]

theorem writeCells_below (cells : List (List Cell)) :
    ∀ g r0 c0 r' c', r' < r0 →
      gridGet (writeCells g r0 c0 cells) r' c' = gridGet g r' c' := by
  induction cells with
  | nil => intro g r0 c0 r' c' _; rfl
  | cons row rest ih =>
    intro g r0 c0 r' c' h
    unfold writeCells
    rw [ih _ _ _ _ _ (by omega)]
    exact writeCellsRow_other row _ _ _ _ _ (Or.inl (by omega))

theorem writeCells_self (cells : List (List Cell)) :
    ∀ g r0 c0 i j, i < cells.length → j < (cells.getD i []).length →
      r0 + cells.length ≤ g.length →
      (∀ k, k < cells.length → c0 + (cells.getD k []).length ≤ (g.getD (r0 + k) []).length) →
      gridGet (writeCells g r0 c0 cells) (r0 + i) (c0 + j)
        = (cells.getD i []).getD j defaultCell := by
  induction cells with
  | nil => intro g r0 c0 i j hi _ _ _; simp at hi
  | cons row rest ih =>
    intro g r0 c0 i j hi hj hrows hcols
    unfold writeCells
    match i with
    | 0 =>
      rw [writeCells_below rest _ _ _ _ _ (by omega)]
      simp only [Nat.add_zero]
      have hj' : j < row.length := by simpa using hj
      have hlen := hcols 0 (by simp)
      simp only [Nat.add_zero, List.getD_cons_zero] at hlen
      rw [writeCellsRow_self row g r0 c0 j hj'
        (by simp only [List.length_cons] at hrows; omega) hlen]
      simp
    | i + 1 =>
      have heq : r0 + (i + 1) = (r0 + 1) + i := by omega
      rw [heq]
      rw [ih (writeCellsRow g r0 c0 row) (r0 + 1) c0 i j (by simpa using hi)
        (by simpa using hj)
        (by rw [writeCellsRow_length]; simp only [List.length_cons] at hrows; omega)
        ?_]
      · simp
      · intro k hk
        rw [writeCellsRow_row_length]
        have := hcols (k + 1) (by simpa using hk)
        simp only [List.getD_cons_succ] at this
        have heq2 : r0 + (k + 1) = r0 + 1 + k := by omega
        rw [heq2] at this
        exact this

/-! Snapshot-rectangle lemmas. -/

theorem snapshotRect_length (g : List (List Cell)) (r1 c1 r2 c2 : Nat) :
    (snapshotRect g r1 c1 r2 c2).length = r2 + 1 - r1 := by
  unfold snapshotRect
  simp

theorem snapshotRect_row (g : List (List Cell)) (r1 c1 r2 c2 i : Nat)
    (hi : i < r2 + 1 - r1) :
    (snapshotRect g r1 c1 r2 c2).getD i []
      = (List.range (c2 + 1 - c1)).map (fun j => gridGet g (r1 + i) (c1 + j)) := by
  unfold snapshotRect
  rw [List.getD_eq_getElem?_getD, List.getElem?_map, List.getElem?_range hi]
  rfl

theorem snapshotRect_get (g : List (List Cell)) (r1 c1 r2 c2 i j : Nat)
    (hi : i < r2 + 1 - r1) (hj : j < c2 + 1 - c1) :
    ((snapshotRect g r1 c1 r2 c2).getD i []).getD j defaultCell
      = gridGet g (r1 + i) (c1 + j) := by
  rw [snapshotRect_row g r1 c1 r2 c2 i hi]
  rw [List.getD_eq_getElem?_getD, List.getElem?_map, List.getElem?_range hj]
  rfl

/-! Sheet-map lemmas. -/

theorem lookupSheet_updateRows_self (sheets : List Sheet) (name : List Char)
    (g : List (List Cell)) :
    lookupSheet (sheetsUpdateRows sheets name g) name
      = (lookupSheet sheets name).map (fun s => { s with rows := g }) := by
  induction sheets with
  | nil => rfl
  | cons s rest ih =>
    unfold lookupSheet sheetsUpdateRows at ih ⊢
    by_cases h : s.name = name
    · simp [List.find?, h]
    · simp only [List.map_cons, if_neg h, List.find?]
      rw [show (decide (s.name = name)) = false by simp [h]]
      exact ih

theorem rowsOf_updateRows (wb : Workbook) (name : List Char) (g : List (List Cell))
    (cps : List Checkpoint) (evs : List SheetEvent)
    (h : (lookupSheet wb.sheets name).isSome) :
    rowsOf ⟨sheetsUpdateRows wb.sheets name g, cps, evs⟩ name = g := by
  unfold rowsOf
  simp only [lookupSheet_updateRows_self]
  cases hh : lookupSheet wb.sheets name with
  | none => rw [hh] at h; simp at h
  | some s => simp

theorem lookupSheet_ensureSize (wb : Workbook) (name : List Char) (nr nc : Nat)
    (s : Sheet) (h : lookupSheet wb.sheets name = some s) :
    lookupSheet (ensureSize wb name nr nc).sheets name
      = some { s with rows := padGrid s.rows nr nc } := by
  unfold ensureSize
  rw [h]
  simp [lookupSheet_updateRows_self, h]

theorem rowsOf_ensureSize (wb : Workbook) (name : List Char) (nr nc : Nat)
    (s : Sheet) (h : lookupSheet wb.sheets name = some s) :
    rowsOf (ensureSize wb name nr nc) name = padGrid s.rows nr nc := by
  unfold rowsOf
  rw [lookupSheet_ensureSize wb name nr nc s h]

theorem snapshotRect_row_length (g : List (List Cell)) (r1 c1 r2 c2 i : Nat)
    (hi : i < r2 + 1 - r1) :
    ((snapshotRect g r1 c1 r2 c2).getD i []).length = c2 + 1 - c1 := by
  rw [snapshotRect_row g r1 c1 r2 c2 i hi]
  simp

theorem rowsOf_eq_of_sheets {wb wb' : Workbook} (h : wb.sheets = wb'.sheets)
    (name : List Char) : rowsOf wb name = rowsOf wb' name := by
  unfold rowsOf lookupSheet
  rw [h]

/-- Closed form of a successful `setValues` (the sheet exists). -/
theorem setValues_eq (wb : Workbook) (rg : RangeRef) (values : List (List CellVal))
    (prov : Option (List CellProvenance)) (s0 : Sheet)
    (hs : lookupSheet wb.sheets rg.sheet = some s0) :
    setValues wb rg values prov
      = (appendEvent
          { ensureSize (ensureSize wb rg.sheet (rg.r2 + 1) (rg.c2 + 1)) rg.sheet
              (rg.r2 + 1) (rg.c2 + 1) with
            sheets := sheetsUpdateRows
              (ensureSize (ensureSize wb rg.sheet (rg.r2 + 1) (rg.c2 + 1)) rg.sheet
                (rg.r2 + 1) (rg.c2 + 1)).sheets rg.sheet
              (writeValues (padGrid (padGrid s0.rows (rg.r2 + 1) (rg.c2 + 1))
                (rg.r2 + 1) (rg.c2 + 1)) rg.r1 rg.c1 prov values) }
          (.setValues rg values prov)
          (.setCells rg (snapshotRect (padGrid s0.rows (rg.r2 + 1) (rg.c2 + 1))
            rg.r1 rg.c1 rg.r2 rg.c2))
          ("setValues ".data ++ rg.sheet ++ "!".data ++ rcToA1 rg.r1 rg.c1), none) := by
  have h1 : rowsOf (ensureSize wb rg.sheet (rg.r2 + 1) (rg.c2 + 1)) rg.sheet
      = padGrid s0.rows (rg.r2 + 1) (rg.c2 + 1) :=
    rowsOf_ensureSize wb rg.sheet (rg.r2 + 1) (rg.c2 + 1) s0 hs
  have h2 : rowsOf (ensureSize (ensureSize wb rg.sheet (rg.r2 + 1) (rg.c2 + 1)) rg.sheet
        (rg.r2 + 1) (rg.c2 + 1)) rg.sheet
      = padGrid (padGrid s0.rows (rg.r2 + 1) (rg.c2 + 1)) (rg.r2 + 1) (rg.c2 + 1) :=
    rowsOf_ensureSize (ensureSize wb rg.sheet (rg.r2 + 1) (rg.c2 + 1)) rg.sheet
      (rg.r2 + 1) (rg.c2 + 1) { s0 with rows := padGrid s0.rows (rg.r2 + 1) (rg.c2 + 1) }
      (lookupSheet_ensureSize wb rg.sheet (rg.r2 + 1) (rg.c2 + 1) s0 hs)
  unfold setValues snapshot
  rw [hs, ← h2, ← h1]

/-- Closed form of a successful `setCells` (the sheet exists). -/
theorem setCells_eq (wb : Workbook) (rg : RangeRef) (cells : List (List Cell))
    (s1 : Sheet) (hs : lookupSheet wb.sheets rg.sheet = some s1) :
    setCells wb rg cells
      = (appendEvent
          { ensureSize wb rg.sheet (rg.r2 + 1) (rg.c2 + 1) with
            sheets := sheetsUpdateRows
              (ensureSize wb rg.sheet (rg.r2 + 1) (rg.c2 + 1)).sheets rg.sheet
              (writeCells (padGrid s1.rows (rg.r2 + 1) (rg.c2 + 1)) rg.r1 rg.c1 cells) }
          (.setCells rg cells) .noop "setCells".data, none) := by
  have h1 : rowsOf (ensureSize wb rg.sheet (rg.r2 + 1) (rg.c2 + 1)) rg.sheet
      = padGrid s1.rows (rg.r2 + 1) (rg.c2 + 1) :=
    rowsOf_ensureSize wb rg.sheet (rg.r2 + 1) (rg.c2 + 1) s1 hs
  unfold setCells
  rw [hs, ← h1]

/-- **C2.** `setValues` on a range containing a cell, followed by
`undo()`, restores that cell's value, its formula presence/absence and
its format to exactly what they were before the mutation (the undo
replays the inverse `setCells` carrying the pre-image snapshot of the
whole rectangle).  The payload-fits-the-rectangle hypotheses delimit the
domain on which the embedding models the JavaScript writes (outside it
the source throws mid-loop). -/
theorem c2_setValues_undo_restores (wb : Workbook) (rg : RangeRef)
    (values : List (List CellVal)) (prov : Option (List CellProvenance))
    (s0 : Sheet) (r c : Nat)
    (hs : lookupSheet wb.sheets rg.sheet = some s0)
    (hr1 : rg.r1 ≤ r) (hr2 : r ≤ rg.r2) (hc1 : rg.c1 ≤ c) (hc2 : c ≤ rg.c2)
    (hfitr : values.length ≤ rg.r2 + 1 - rg.r1)
    (hfitc : ∀ row ∈ values, row.length ≤ rg.c2 + 1 - rg.c1) :
    ((gridGet (rowsOf (undo (setValues wb rg values prov).1).1 rg.sheet) r c).value
        = (gridGet (rowsOf wb rg.sheet) r c).value) ∧
    ((gridGet (rowsOf (undo (setValues wb rg values prov).1).1 rg.sheet) r c).formula.isSome
        = (gridGet (rowsOf wb rg.sheet) r c).formula.isSome) ∧
    ((gridGet (rowsOf (undo (setValues wb rg values prov).1).1 rg.sheet) r c).format
        = (gridGet (rowsOf wb rg.sheet) r c).format) := by
  have hcell : gridGet (rowsOf (undo (setValues wb rg values prov).1).1 rg.sheet) r c
      = gridGet (rowsOf wb rg.sheet) r c := by
    rw [setValues_eq wb rg values prov s0 hs]
    set G0 := padGrid s0.rows (rg.r2 + 1) (rg.c2 + 1) with hG0
    set before := snapshotRect G0 rg.r1 rg.c1 rg.r2 rg.c2 with hbefore
    set W := writeValues (padGrid G0 (rg.r2 + 1) (rg.c2 + 1)) rg.r1 rg.c1 prov values
      with hW
    set E2 := ensureSize (ensureSize wb rg.sheet (rg.r2 + 1) (rg.c2 + 1)) rg.sheet
      (rg.r2 + 1) (rg.c2 + 1) with hE2
    -- The workbook after setValues, with its single appended event.
    have hm1ev : ((appendEvent { E2 with sheets := sheetsUpdateRows E2.sheets rg.sheet W }
        (.setValues rg values prov) (.setCells rg before)
        ("setValues ".data ++ rg.sheet ++ "!".data ++ rcToA1 rg.r1 rg.c1), none) :
          Workbook × Option EngineError).1.events
        = wb.events ++
          [⟨.setValues rg values prov, .setCells rg before,
            "setValues ".data ++ rg.sheet ++ "!".data ++ rcToA1 rg.r1 rg.c1⟩] := by
      simp only [appendEvent]
      rw [hE2, events_ensureSize, events_ensureSize]
    -- Undo pops the event and dispatches the inverse `setCells`.
    unfold undo
    rw [hm1ev]
    rw [show (wb.events ++
        [(⟨.setValues rg values prov, .setCells rg before,
          "setValues ".data ++ rg.sheet ++ "!".data ++ rcToA1 rg.r1 rg.c1⟩ :
          SheetEvent)]).getLast? = some
          ⟨.setValues rg values prov, .setCells rg before,
            "setValues ".data ++ rg.sheet ++ "!".data ++ rcToA1 rg.r1 rg.c1⟩ by simp]
    simp only [List.dropLast_concat]
    -- The workbook fed to the inverse dispatch.
    set wbU : Workbook :=
      { sheets := sheetsUpdateRows E2.sheets rg.sheet W, checkpoints := E2.checkpoints,
        events := wb.events } with hwbU
    have hwbU_eq : { appendEvent { E2 with sheets := sheetsUpdateRows E2.sheets rg.sheet W }
        (.setValues rg values prov) (.setCells rg before)
        ("setValues ".data ++ rg.sheet ++ "!".data ++ rcToA1 rg.r1 rg.c1) with
        events := wb.events } = wbU := by
      simp [appendEvent, hwbU]
    rw [hwbU_eq]
    -- setCells restores the snapshot.
    have hlookU : lookupSheet wbU.sheets rg.sheet = some ⟨s0.name, W⟩ := by
      rw [hwbU]
      simp only [lookupSheet_updateRows_self]
      rw [hE2]
      rw [lookupSheet_ensureSize (ensureSize wb rg.sheet (rg.r2 + 1) (rg.c2 + 1)) rg.sheet
        (rg.r2 + 1) (rg.c2 + 1) { s0 with rows := G0 }
        (lookupSheet_ensureSize wb rg.sheet (rg.r2 + 1) (rg.c2 + 1) s0 hs)]
      rfl
    show gridGet (rowsOf (dispatch wbU (.setCells rg before) true).1 rg.sheet) r c
        = gridGet (rowsOf wb rg.sheet) r c
    rw [show dispatch wbU (Op.setCells rg before) true = setCells wbU rg before from rfl]
    rw [setCells_eq wbU rg before ⟨s0.name, W⟩ hlookU]
    -- Row grid after the restore.
    have hrows2 : rowsOf ((appendEvent
        { ensureSize wbU rg.sheet (rg.r2 + 1) (rg.c2 + 1) with
          sheets := sheetsUpdateRows
            (ensureSize wbU rg.sheet (rg.r2 + 1) (rg.c2 + 1)).sheets rg.sheet
            (writeCells (padGrid W (rg.r2 + 1) (rg.c2 + 1)) rg.r1 rg.c1 before) }
        (.setCells rg before) .noop "setCells".data, none) :
          Workbook × Option EngineError).1 rg.sheet
        = writeCells (padGrid W (rg.r2 + 1) (rg.c2 + 1)) rg.r1 rg.c1 before := by
      have hsome : (lookupSheet
          (ensureSize wbU rg.sheet (rg.r2 + 1) (rg.c2 + 1)).sheets rg.sheet).isSome := by
        rw [lookupSheet_ensureSize wbU rg.sheet (rg.r2 + 1) (rg.c2 + 1) ⟨s0.name, W⟩ hlookU]
        rfl
      simp only [appendEvent]
      exact rowsOf_updateRows (ensureSize wbU rg.sheet (rg.r2 + 1) (rg.c2 + 1)) rg.sheet _ _ _
        hsome
    rw [hrows2]
    -- Index arithmetic and the three get-lemmas.
    have hr12 : rg.r1 ≤ rg.r2 := le_trans hr1 hr2
    have hc12 : rg.c1 ≤ rg.c2 := le_trans hc1 hc2
    have hi : r - rg.r1 < rg.r2 + 1 - rg.r1 := by omega
    have hj : c - rg.c1 < rg.c2 + 1 - rg.c1 := by omega
    have hblen : before.length = rg.r2 + 1 - rg.r1 := by
      rw [hbefore]
      exact snapshotRect_length G0 rg.r1 rg.c1 rg.r2 rg.c2
    have hbrow : ∀ k, k < before.length → (before.getD k []).length = rg.c2 + 1 - rg.c1 := by
      intro k hk
      rw [hbefore] at hk ⊢
      rw [snapshotRect_length] at hk
      exact snapshotRect_row_length G0 rg.r1 rg.c1 rg.r2 rg.c2 k hk
    have hG2len : rg.r1 + before.length ≤ (padGrid W (rg.r2 + 1) (rg.c2 + 1)).length := by
      rw [hblen, padGrid_length]
      omega
    have hG2rows : ∀ k, k < before.length →
        rg.c1 + (before.getD k []).length
          ≤ ((padGrid W (rg.r2 + 1) (rg.c2 + 1)).getD (rg.r1 + k) []).length := by
      intro k hk
      have hkin : rg.r1 + k < (padGrid W (rg.r2 + 1) (rg.c2 + 1)).length := by
        rw [padGrid_length]
        rw [hblen] at hk
        omega
      have := padGrid_row_length W (rg.r2 + 1) (rg.c2 + 1) (rg.r1 + k) hkin
      rw [hbrow k hk]
      omega
    have hrc : r = rg.r1 + (r - rg.r1) := by omega
    have hcc : c = rg.c1 + (c - rg.c1) := by omega
    rw [hrc, hcc]
    rw [writeCells_self before (padGrid W (rg.r2 + 1) (rg.c2 + 1)) rg.r1 rg.c1
      (r - rg.r1) (c - rg.c1) (by rw [hblen]; exact hi)
      (by rw [hbrow (r - rg.r1) (by rw [hblen]; exact hi)]; exact hj) hG2len hG2rows]
    rw [hbefore]
    rw [snapshotRect_get G0 rg.r1 rg.c1 rg.r2 rg.c2 (r - rg.r1) (c - rg.c1) hi hj]
    rw [hG0, gridGet_padGrid]
    unfold rowsOf
    rw [hs]
  exact ⟨by rw [hcell], by rw [hcell], by rw [hcell]⟩

/-- A workbook holding `"Initial"` in `A1`, the pre-state of the C2
witness. -/
def wbC2 : Workbook :=
  (setValues initialModel ⟨sheet1, 0, 0, 0, 0⟩ [[some (.inl "Initial".data)]] none).1

theorem c2_setValues_undo_restores_witness :
    (lookupSheet wbC2.sheets sheet1
       = some ⟨"Sheet1".data, [[⟨some (.inl "Initial".data), none, none, none⟩]]⟩ ∧
     (0 : Nat) ≤ 0 ∧
     [[(some (.inl "New".data) : CellVal)]].length ≤ 0 + 1 - 0 ∧
     ∀ row ∈ [[(some (.inl "New".data) : CellVal)]], row.length ≤ 0 + 1 - 0) ∧
    (((gridGet (rowsOf (undo (setValues wbC2 ⟨sheet1, 0, 0, 0, 0⟩
          [[some (.inl "New".data)]] none).1).1 sheet1) 0 0).value
        = (gridGet (rowsOf wbC2 sheet1) 0 0).value) ∧
     ((gridGet (rowsOf (undo (setValues wbC2 ⟨sheet1, 0, 0, 0, 0⟩
          [[some (.inl "New".data)]] none).1).1 sheet1) 0 0).formula.isSome
        = (gridGet (rowsOf wbC2 sheet1) 0 0).formula.isSome) ∧
     ((gridGet (rowsOf (undo (setValues wbC2 ⟨sheet1, 0, 0, 0, 0⟩
          [[some (.inl "New".data)]] none).1).1 sheet1) 0 0).format
        = (gridGet (rowsOf wbC2 sheet1) 0 0).format)) :=
  ⟨⟨by decide, by decide, by decide,
    by intro row hrow; rw [List.mem_singleton] at hrow; subst hrow; decide⟩,
   c2_setValues_undo_restores wbC2 ⟨sheet1, 0, 0, 0, 0⟩ [[some (.inl "New".data)]] none
     ⟨"Sheet1".data, [[⟨some (.inl "Initial".data), none, none, none⟩]]⟩ 0 0
     (by decide) (by decide) (by decide) (by decide) (by decide) (by decide)
     (by intro row hrow; rw [List.mem_singleton] at hrow; subst hrow; decide)⟩

/-! ### Grid growth (towards C10) -/

/-- Evaluation never shrinks any sheet's grid: row count and every row's
length are monotone. -/
def GridGrows (wb wb' : Workbook) : Prop :=
  ∀ name, (rowsOf wb name).length ≤ (rowsOf wb' name).length ∧
    ∀ i, ((rowsOf wb name).getD i []).length ≤ ((rowsOf wb' name).getD i []).length

theorem gridGrows_refl (wb : Workbook) : GridGrows wb wb :=
  fun _ => ⟨le_refl _, fun _ => le_refl _⟩

theorem gridGrows_trans {a b c : Workbook} (h1 : GridGrows a b) (h2 : GridGrows b c) :
    GridGrows a c := fun name =>
  ⟨le_trans (h1 name).1 (h2 name).1,
   fun i => le_trans ((h1 name).2 i) ((h2 name).2 i)⟩

theorem lookupSheet_updateRows_other (l : List Sheet) (name : List Char)
    (g : List (List Cell)) (name' : List Char) (h : ¬ name' = name) :
    lookupSheet (sheetsUpdateRows l name g) name' = lookupSheet l name' := by
  induction l with
  | nil => rfl
  | cons s rest ih =>
    unfold lookupSheet sheetsUpdateRows at ih ⊢
    by_cases hsn : s.name = name
    · have hs' : ¬ s.name = name' := by
        rw [hsn]
        intro hcontra
        exact h hcontra.symm
      simp only [List.map_cons, if_pos hsn, List.find?]
      rw [show (decide (({ s with rows := g } : Sheet).name = name')) = false by
        simp [hs']]
      exact ih
    · simp only [List.map_cons, if_neg hsn, List.find?]
      cases hd : decide (s.name = name')
      · exact ih
      · rfl

theorem padGrid_len_ge (g : List (List Cell)) (nr nc : Nat) :
    g.length ≤ (padGrid g nr nc).length := by
  rw [padGrid_length]
  omega

theorem padGrid_row_ge (g : List (List Cell)) (nr nc i : Nat) :
    (g.getD i []).length ≤ ((padGrid g nr nc).getD i []).length := by
  by_cases hi : i < g.length
  · have hrow : (padGrid g nr nc)[i]?
        = some (g[i] ++ List.replicate (nc - g[i].length) defaultCell) := by
      unfold padGrid
      rw [List.getElem?_map, List.getElem?_append, if_pos hi, List.getElem?_eq_getElem hi]
      rfl
    rw [List.getD_eq_getElem?_getD, List.getD_eq_getElem?_getD, hrow,
      List.getElem?_eq_getElem hi]
    simp
  · rw [List.getD_eq_getElem?_getD, List.getElem?_eq_none (Nat.le_of_not_lt hi)]
    simp

/-- `rowsOf` after a row-grid update, all cases. -/
theorem rowsOf_updateRows_cases (sheets : List Sheet) (cps : List Checkpoint)
    (evs : List SheetEvent) (name : List Char) (g : List (List Cell)) (name' : List Char) :
    rowsOf ⟨sheetsUpdateRows sheets name g, cps, evs⟩ name'
      = if name' = name then
          (match lookupSheet sheets name with
           | some _ => g
           | none => [])
        else rowsOf ⟨sheets, cps, evs⟩ name' := by
  by_cases h : name' = name
  · subst h
    rw [if_pos rfl]
    unfold rowsOf
    simp only [lookupSheet_updateRows_self]
    cases lookupSheet sheets name' <;> simp
  · rw [if_neg h]
    unfold rowsOf
    rw [lookupSheet_updateRows_other sheets name g name' h]

theorem ensureSize_grows (wb : Workbook) (name : List Char) (nr nc : Nat) :
    GridGrows wb (ensureSize wb name nr nc) := by
  intro n
  unfold ensureSize
  cases h : lookupSheet wb.sheets name with
  | none => exact ⟨le_refl _, fun _ => le_refl _⟩
  | some s =>
    have hcases := rowsOf_updateRows_cases wb.sheets wb.checkpoints wb.events name
      (padGrid s.rows nr nc) n
    by_cases hn : n = name
    · subst hn
      rw [if_pos rfl, h] at hcases
      have hwb : rowsOf wb n = s.rows := by
        unfold rowsOf
        rw [h]
      constructor
      · rw [hcases, hwb]
        exact padGrid_len_ge s.rows nr nc
      · intro i
        rw [hcases, hwb]
        exact padGrid_row_ge s.rows nr nc i
    · rw [if_neg hn] at hcases
      rw [hcases]
      exact ⟨le_refl _, fun _ => le_refl _⟩

theorem setCellValue_grows (wb : Workbook) (name : List Char) (r c : Nat) (v : CellVal) :
    GridGrows wb (setCellValue wb name r c v) := by
  intro n
  unfold setCellValue
  have hcases := rowsOf_updateRows_cases wb.sheets wb.checkpoints wb.events name
    (gridSet (rowsOf wb name) r c { gridGet (rowsOf wb name) r c with value := v }) n
  rw [hcases]
  by_cases hn : n = name
  · subst hn
    rw [if_pos rfl]
    cases h : lookupSheet wb.sheets n with
    | none =>
      have hwb : rowsOf wb n = [] := by
        unfold rowsOf
        rw [h]
      rw [hwb]
      exact ⟨by simp, fun _ => by simp⟩
    | some s =>
      constructor
      · rw [gridSet_length]
      · intro i
        rw [getD_row_gridSet]
  · rw [if_neg hn]
    exact ⟨le_refl _, fun _ => le_refl _⟩

theorem getCell_fst_grows (wb : Workbook) (name : List Char) (r c : Nat) :
    GridGrows wb (getCell wb name r c).1 := by
  unfold getCell
  cases h : lookupSheet wb.sheets name with
  | none => exact gridGrows_refl wb
  | some s => exact ensureSize_grows wb name (r + 1) (c + 1)

theorem getCell_error_eq (wb : Workbook) (name : List Char) (r c : Nat) (wb1 : Workbook)
    (e : EngineError) (h : getCell wb name r c = (wb1, .error e)) : wb1 = wb := by
  unfold getCell at h
  cases hl : lookupSheet wb.sheets name with
  | none =>
    rw [hl] at h
    exact (Prod.mk.injEq _ _ _ _ ▸ h).1.symm
  | some s =>
    rw [hl] at h
    simp at h

theorem getCell_ok_shape (wb : Workbook) (name : List Char) (r c : Nat) (wb1 : Workbook)
    (cell : Cell) (h : getCell wb name r c = (wb1, .ok cell)) :
    (rowsOf wb1 name).length = max (rowsOf wb name).length (r + 1) ∧
    (∀ i, i < (rowsOf wb1 name).length → c + 1 ≤ ((rowsOf wb1 name).getD i []).length) := by
  unfold getCell at h
  cases hl : lookupSheet wb.sheets name with
  | none =>
    rw [hl] at h
    simp at h
  | some s =>
    rw [hl] at h
    have hwb1 : wb1 = ensureSize wb name (r + 1) (c + 1) :=
      (Prod.mk.injEq _ _ _ _ ▸ h).1.symm
    subst hwb1
    have hrows : rowsOf (ensureSize wb name (r + 1) (c + 1)) name
        = padGrid s.rows (r + 1) (c + 1) := rowsOf_ensureSize wb name (r + 1) (c + 1) s hl
    have hwb : rowsOf wb name = s.rows := by
      unfold rowsOf
      rw [hl]
    rw [hrows, hwb]
    exact ⟨padGrid_length s.rows (r + 1) (c + 1),
      fun i hi => padGrid_row_length s.rows (r + 1) (c + 1) i hi⟩

theorem evalFinal_fst_grows (wb : Workbook) (sheet : List Char) (r c : Nat)
    (expr : List Char) : GridGrows wb (evalFinal wb sheet r c expr).1 := by
  unfold evalFinal
  split
  · exact setCellValue_grows wb sheet r c _
  · cases jsEval expr
    · exact setCellValue_grows wb sheet r c _
    · exact setCellValue_grows wb sheet r c _

/-- Grid growth for the whole recursive evaluation family, by induction on
the fuel: every completed call leaves every sheet's grid at least as large
as it found it. -/
theorem evalFamily_grows (fuel : Nat) :
    (∀ wb sheet r c seen res,
      evaluateCell fuel wb sheet r c seen = some res → GridGrows wb res.1) ∧
    (∀ wb sheet a1 seen res,
      evalRef fuel wb sheet a1 seen = some res → GridGrows wb res.1) ∧
    (∀ wb sheet t seen res,
      sumTerm fuel wb sheet t seen = some res → GridGrows wb res.1) ∧
    (∀ wb sheet ts total seen res,
      sumArgsGo fuel wb sheet ts total seen = some res → GridGrows wb res.1) ∧
    (∀ wb sheet args seen res,
      sumArgs fuel wb sheet args seen = some res → GridGrows wb res.1) ∧
    (∀ wb sheet t seen res,
      sumRange fuel wb sheet t seen = some res → GridGrows wb res.1) ∧
    (∀ wb sheet r c rHi cLo cHi total seen res,
      sumRangeLoop fuel wb sheet r c rHi cLo cHi total seen = some res →
        GridGrows wb res.1) ∧
    (∀ wb sheet seen segs acc res,
      sumPassGo fuel wb sheet seen segs acc = some res → GridGrows wb res.1) ∧
    (∀ wb sheet seen segs acc res,
      refPassGo fuel wb sheet seen segs acc = some res → GridGrows wb res.1) := by
  induction fuel with
  | zero =>
    refine ⟨?_, ?_, ?_, ?_, ?_, ?_, ?_, ?_, ?_⟩ <;>
      · intros
        rename_i h
        simp only [evaluateCell, evalRef, sumTerm, sumArgsGo, sumArgs, sumRange,
          sumRangeLoop, sumPassGo, refPassGo] at h
        exact Option.noConfusion h
  | succ fuel ih =>
    obtain ⟨ihEval, ihRef, ihTerm, ihArgsGo, ihArgs, ihRange, ihLoop, ihPass, ihRefPass⟩ := ih
    refine ⟨?_, ?_, ?_, ?_, ?_, ?_, ?_, ?_, ?_⟩
    -- evaluateCell
    · intro wb sheet r c seen res h
      simp only [evaluateCell] at h
      have hg := getCell_fst_grows wb sheet r c
      split at h
      · split at h
        · rename_i wb1 e heq
          rw [heq] at hg
          cases h
          exact hg
        · rename_i wb1 cell heq
          rw [heq] at hg
          cases h
          exact gridGrows_trans hg (setCellValue_grows wb1 sheet r c _)
      · split at h
        · rename_i wb1 e heq
          rw [heq] at hg
          cases h
          exact hg
        · rename_i wb1 cell heq
          rw [heq] at hg
          split at h
          · cases h
            exact hg
          · rename_i f
            split at h
            · rename_i expr0
              split at h
              · exact Option.noConfusion h
              · rename_i wb2 seen2 e heq2
                cases h
                exact gridGrows_trans hg (ihPass wb1 sheet _ _ [] _ heq2)
              · rename_i wb2 seen2 expr1 heq2
                split at h
                · exact Option.noConfusion h
                · rename_i wb3 seen3 e heq3
                  cases h
                  exact gridGrows_trans hg
                    (gridGrows_trans (ihPass wb1 sheet _ _ [] _ heq2)
                      (ihRefPass wb2 sheet _ _ [] _ heq3))
                · rename_i wb3 seen3 expr2 heq3
                  cases h
                  exact gridGrows_trans hg
                    (gridGrows_trans (ihPass wb1 sheet _ _ [] _ heq2)
                      (gridGrows_trans (ihRefPass wb2 sheet _ _ [] _ heq3)
                        (evalFinal_fst_grows wb3 sheet r c expr2)))
            · cases h
              exact hg
    -- evalRef
    · intro wb sheet a1 seen res h
      simp only [evalRef] at h
      split at h
      · cases h
        exact gridGrows_refl wb
      · rename_i ri ci heq
        split at h
        · cases h
          exact gridGrows_refl wb
        · split at h
          · exact Option.noConfusion h
          · rename_i wb' seen' e heq2
            cases h
            exact ihEval wb sheet _ _ seen _ heq2
          · rename_i wb' seen' v heq2
            have hgrow := ihEval wb sheet _ _ seen _ heq2
            split at h <;> cases h <;> exact hgrow
    -- sumTerm
    · intro wb sheet t seen res h
      simp only [sumTerm] at h
      split at h
      · split at h
        · exact Option.noConfusion h
        · rename_i wb' seen' e heq
          cases h
          exact ihRange wb sheet _ seen _ heq
        · rename_i wb' seen' n heq
          cases h
          exact ihRange wb sheet _ seen _ heq
      · split at h
        · exact ihRef wb sheet _ seen res h
        · cases h
          exact gridGrows_refl wb
    -- sumArgsGo
    · intro wb sheet ts total seen res h
      cases ts with
      | nil =>
        simp only [sumArgsGo] at h
        cases h
        exact gridGrows_refl wb
      | cons t ts =>
        simp only [sumArgsGo] at h
        split at h
        · exact Option.noConfusion h
        · rename_i wb' seen' e heq
          cases h
          exact ihTerm wb sheet t seen _ heq
        · rename_i wb' seen' s heq
          cases h
          exact ihTerm wb sheet t seen _ heq
        · rename_i wb' seen' n heq
          exact gridGrows_trans (ihTerm wb sheet t seen _ heq)
            (ihArgsGo wb' sheet ts _ seen' res h)
    -- sumArgs
    · intro wb sheet args seen res h
      simp only [sumArgs] at h
      exact ihArgsGo wb sheet _ _ seen res h
    -- sumRange
    · intro wb sheet t seen res h
      simp only [sumRange] at h
      split at h
      · cases h
        exact gridGrows_refl wb
      · split at h
        · rename_i ra ca rb cb
          split at h
          · cases h
            exact gridGrows_refl wb
          · exact ihLoop wb sheet _ _ _ _ _ _ seen res h
        · cases h
          exact gridGrows_refl wb
    -- sumRangeLoop
    · intro wb sheet r c rHi cLo cHi total seen res h
      simp only [sumRangeLoop] at h
      split at h
      · cases h
        exact gridGrows_refl wb
      · split at h
        · exact ihLoop wb sheet _ _ _ _ _ _ seen res h
        · split at h
          · exact Option.noConfusion h
          · rename_i wb' seen' e heq
            cases h
            exact ihEval wb sheet r c seen _ heq
          · rename_i wb' seen' v heq
            exact gridGrows_trans (ihEval wb sheet r c seen _ heq)
              (ihLoop wb' sheet _ _ _ _ _ _ seen' res h)
    -- sumPassGo
    · intro wb sheet seen segs acc res h
      cases segs with
      | nil =>
        simp only [sumPassGo] at h
        cases h
        exact gridGrows_refl wb
      | cons seg segs =>
        cases seg with
        | lit cs =>
          simp only [sumPassGo] at h
          exact ihPass wb sheet seen segs _ res h
        | call args =>
          simp only [sumPassGo] at h
          split at h
          · exact Option.noConfusion h
          · rename_i wb' seen' e heq
            cases h
            exact ihArgs wb sheet args seen _ heq
          · rename_i wb' seen' v heq
            exact gridGrows_trans (ihArgs wb sheet args seen _ heq)
              (ihPass wb' sheet seen' segs _ res h)
    -- refPassGo
    · intro wb sheet seen segs acc res h
      cases segs with
      | nil =>
        simp only [refPassGo] at h
        cases h
        exact gridGrows_refl wb
      | cons seg segs =>
        cases seg with
        | lit cs =>
          simp only [refPassGo] at h
          exact ihRefPass wb sheet seen segs _ res h
        | tok cs =>
          simp only [refPassGo] at h
          split at h
          · exact Option.noConfusion h
          · rename_i wb' seen' e heq
            cases h
            exact ihRef wb sheet cs seen _ heq
          · rename_i wb' seen' v heq
            exact gridGrows_trans (ihRef wb sheet cs seen _ heq)
              (ihRefPass wb' sheet seen' segs _ res h)

/-- **C10 (amended).** Evaluating a cell at `(r, c)` — including a cell
with no formula — pads the target sheet's grid so that afterwards it has
at least `r + 1` rows, and every row at an index below
`max (original row count) (r + 1)` has at least `c + 1` cells; rows
created later by nested reference evaluation may be shorter than `c + 1`
(see the counterexample).  Evaluation never shrinks any grid. -/
theorem c10_eval_pads (fuel : Nat) (wb : Workbook) (sheet : List Char) (r c : Nat)
    (seen : Seen) (wb' : Workbook) (seen' : Seen) (v : CellVal)
    (h : evaluateCell fuel wb sheet r c seen = some (wb', seen', .ok v)) :
    r + 1 ≤ (rowsOf wb' sheet).length ∧
    (∀ i, i < max (rowsOf wb sheet).length (r + 1) →
      c + 1 ≤ ((rowsOf wb' sheet).getD i []).length) ∧
    GridGrows wb wb' := by
  have hG : GridGrows wb wb' :=
    (evalFamily_grows fuel).1 wb sheet r c seen (wb', seen', .ok v) h
  have key : ∀ wbA wbB : Workbook,
      (rowsOf wbA sheet).length = max (rowsOf wb sheet).length (r + 1) →
      (∀ i, i < (rowsOf wbA sheet).length →
        c + 1 ≤ ((rowsOf wbA sheet).getD i []).length) →
      GridGrows wbA wbB →
      (r + 1 ≤ (rowsOf wbB sheet).length ∧
       ∀ i, i < max (rowsOf wb sheet).length (r + 1) →
         c + 1 ≤ ((rowsOf wbB sheet).getD i []).length) := by
    intro wbA wbB hlen hrows hg
    constructor
    · have h1 : r + 1 ≤ (rowsOf wbA sheet).length := by
        rw [hlen]
        omega
      exact le_trans h1 (hg sheet).1
    · intro i hi
      have hiA : i < (rowsOf wbA sheet).length := by
        rw [hlen]
        exact hi
      exact le_trans (hrows i hiA) ((hg sheet).2 i)
  cases fuel with
  | zero => simp [evaluateCell] at h
  | succ fuel =>
    have hPass := (evalFamily_grows fuel).2.2.2.2.2.2.2.1
    have hRefP := (evalFamily_grows fuel).2.2.2.2.2.2.2.2
    simp only [evaluateCell] at h
    split at h
    · split at h
      · simp at h
      · rename_i wb1 cell heq
        have hset := getCell_ok_shape wb sheet r c wb1 cell heq
        have hwb' : wb' = setCellValue wb1 sheet r c (some (.inl "#REF!".data)) := by
          have hinj := Option.some.inj h
          exact (congrArg Prod.fst hinj).symm
        obtain ⟨h1, h2⟩ := key wb1 wb' hset.1 hset.2
          (by rw [hwb']; exact setCellValue_grows wb1 sheet r c _)
        exact ⟨h1, h2, hG⟩
    · split at h
      · simp at h
      · rename_i wb1 cell heq
        have hset := getCell_ok_shape wb sheet r c wb1 cell heq
        split at h
        · have hwb' : wb' = wb1 := by
            have hinj := Option.some.inj h
            exact (congrArg Prod.fst hinj).symm
          obtain ⟨h1, h2⟩ := key wb1 wb' hset.1 hset.2
            (by rw [hwb']; exact gridGrows_refl wb1)
          exact ⟨h1, h2, hG⟩
        · rename_i f
          split at h
          · rename_i expr0
            split at h
            · exact Option.noConfusion h
            · simp at h
            · rename_i wb2 seen2 expr1 heq2
              split at h
              · exact Option.noConfusion h
              · simp at h
              · rename_i wb3 seen3 expr2 heq3
                have hwb' : wb' = (evalFinal wb3 sheet r c expr2).1 := by
                  have hinj := Option.some.inj h
                  exact (congrArg Prod.fst hinj).symm
                have hg1 : GridGrows wb1 wb' := by
                  rw [hwb']
                  exact gridGrows_trans (hPass wb1 sheet _ _ [] _ heq2)
                    (gridGrows_trans (hRefP wb2 sheet _ _ [] _ heq3)
                      (evalFinal_fst_grows wb3 sheet r c expr2))
                obtain ⟨h1, h2⟩ := key wb1 wb' hset.1 hset.2 hg1
                exact ⟨h1, h2, hG⟩
          · have hwb' : wb' = wb1 := by
              have hinj := Option.some.inj h
              exact (congrArg Prod.fst hinj).symm
            obtain ⟨h1, h2⟩ := key wb1 wb' hset.1 hset.2
              (by rw [hwb']; exact gridGrows_refl wb1)
            exact ⟨h1, h2, hG⟩

/-- `B1` holds `=A3`, a reference three rows below the current grid. -/
def wbRefBeyond : Workbook :=
  (setFormulas initialModel ⟨sheet1, 0, 1, 0, 1⟩ [[some "=A3".data]]).1

/-- **C10 counterexample.** After evaluating cell `(0, 1)` of
`wbRefBeyond` the sheet's row lengths are `[2, 1, 1]`: the rows created
by the nested evaluation of the out-of-grid reference `A3` were padded
only to 1 column, so not every row has at least `c + 1 = 2` cells as the
claim states. -/
theorem c10_counterexample :
    ((evaluateCell 20 wbRefBeyond sheet1 0 1 []).map
        (fun p => (rowsOf p.1 sheet1).map List.length) = some [2, 1, 1]) ∧
    ¬ (∀ len ∈ [2, 1, 1], 1 + 1 ≤ len) := by
  constructor
  · decide
  · intro hcontra
    have := hcontra 1 (by simp)
    omega

/-- The state and result of the C10 witness evaluation. -/
def c10Res : Workbook × Seen × Except EngineError CellVal :=
  (evaluateCell 20 wbRefBeyond sheet1 0 1 []).getD (wbRefBeyond, [], .ok none)

theorem c10_eval_pads_witness :
    (evaluateCell 20 wbRefBeyond sheet1 0 1 []
       = some (c10Res.1, c10Res.2.1, .ok (some (.inr (jsInt 0))))) ∧
    (0 + 1 ≤ (rowsOf c10Res.1 sheet1).length ∧
     (∀ i, i < max (rowsOf wbRefBeyond sheet1).length (0 + 1) →
       1 + 1 ≤ ((rowsOf c10Res.1 sheet1).getD i []).length) ∧
     GridGrows wbRefBeyond c10Res.1) :=
  ⟨by decide,
   c10_eval_pads 20 wbRefBeyond sheet1 0 1 [] c10Res.1 c10Res.2.1
     (some (.inr (jsInt 0))) (by decide)⟩

end SheetModel
